import Mathlib

/-!
Verification of the crawl → extract → convert → package pipeline of the
HTML-to-PDF/Markdown ebook generator (content script `EnhancedPDFGenerator`).

The JavaScript source is shallowly embedded: pure string manipulation is
modelled on `List Char`/`String`, DOM trees as an inductive `HNode` type,
the browser / extension host (direct `fetch`, background proxy,
`DOMParser`, `new URL`) as explicit oracles passed to each function, and
stateful methods as explicit state-passing functions.
-/

namespace HtmlPdf

/-! ## Basic string helpers (JS semantics) -/

/-- JS whitespace (`\s` / `String.prototype.trim`), restricted to the ASCII
whitespace characters; the Unicode space classes behave identically for the
properties proved here. -/
def isJsWs (c : Char) : Bool :=
  c == ' ' || c == '\t' || c == '\n' || c == '\r' || c == '\x0b' || c == '\x0c'

/-- JS `String.prototype.trim` on a character list. -/
def jsTrimList (cs : List Char) : List Char :=
  ((cs.dropWhile isJsWs).reverse.dropWhile isJsWs).reverse

/-- JS `String.prototype.trim`. -/
def jsTrim (s : String) : String :=
  String.mk (jsTrimList s.data)

/-! ## `cleanTitle` (content.js lines 687-695)

```js
cleanTitle(title) {
  if (!title) return '未命名页面';
  return title
    .replace(/^#+\s*/, '')      // strip leading # run
    .replace(/\s*#+\s*$/, '')   // strip trailing # run
    .replace(/\s*#\s*$/, '')    // strip a single trailing #
    .trim();
}
```
Each `replace` (no `g` flag) removes the leftmost match, which for these
end-anchored patterns is the longest suffix of the given shape. -/

/-- `title.replace(/^#+\s*/, '')`: if the string starts with `#`, drop the
maximal leading `#` run and the following whitespace run. -/
def stripLeadHash (cs : List Char) : List Char :=
  match cs with
  | '#' :: _ => (cs.dropWhile (· == '#')).dropWhile isJsWs
  | _ => cs

/-- `title.replace(/\s*#+\s*$/, '')`: remove the longest suffix of the form
`ws* #+ ws*` (no change when there is no trailing `#` run). -/
def stripTrailHashRun (cs : List Char) : List Char :=
  let r1 := cs.reverse.dropWhile isJsWs
  match r1 with
  | '#' :: _ => ((r1.dropWhile (· == '#')).dropWhile isJsWs).reverse
  | _ => cs

/-- `title.replace(/\s*#\s*$/, '')`: remove the longest suffix of the form
`ws* # ws*` (exactly one `#`). -/
def stripTrailSingleHash (cs : List Char) : List Char :=
  let r1 := cs.reverse.dropWhile isJsWs
  match r1 with
  | '#' :: rest => (rest.dropWhile isJsWs).reverse
  | _ => cs

/-- `cleanTitle` (content.js 687-695). A falsy (empty) title yields the
default `'未命名页面'`. -/
def cleanTitle (title : String) : String :=
  if title = "" then "未命名页面"
  else String.mk (jsTrimList
    (stripTrailSingleHash (stripTrailHashRun (stripLeadHash title.data))))

/-! ## PageContent and the page fetcher (content.js 456-553) -/

/-- The per-page extraction result (`{html, title, styles, textLength}`). -/
structure PageContent where
  html : String
  title : String
  styles : String
  textLength : Nat
deriving Repr, DecidableEq

/-- Outcome of the direct cross-origin `fetch` in `fetchPageViaFetch`:
either the HTML text, or a thrown error (network failure or the explicit
`throw` on a non-ok HTTP status). -/
inductive DirectFetch where
  | ok (html : String)
  | fail (err : String)
deriving Repr, DecidableEq

/-- Outcome of the background-proxy attempt in `fetchPageViaBackground`:
`ok html` - the callback received `{success: true, html}`;
`fail err` - the callback received a failure (or `chrome.runtime.lastError`),
so the promise built inside the `try` block is rejected;
`sendThrow err` - `chrome.runtime.sendMessage` itself threw synchronously
while the promise was being constructed. -/
inductive BgFetch where
  | ok (html : String)
  | fail (err : String)
  | sendThrow (err : String)
deriving Repr, DecidableEq

/-- The host environment for fetching one URL: whether the URL is the
currently loaded page, the content extracted from the live page, the results
of the two network strategies, and `parseHTMLContent` as a total function
(its own `try/catch` converts parse errors into a placeholder, so it never
throws). -/
structure FetchEnv where
  isCurrentPage : Bool
  currentContent : PageContent
  direct : DirectFetch
  bg : BgFetch
  parse : String → PageContent

/-- The placeholder `PageContent` built in the `catch` block of
`fetchPageViaBackground` (content.js 541-551): descriptive HTML body and
`textLength = 0`. -/
def bgFailurePlaceholder (url err : String) : PageContent :=
  { html := "<div class=\"fetch-error\">\n          <h3>页面获取失败</h3>\n          <p>URL: " ++ url ++ "</p>\n          <p>错误: " ++ err ++ "</p>\n          <p>可能原因: 网站禁止跨域访问或网络问题</p>\n        </div>"
    title := "页面获取失败"
    styles := ""
    textLength := 0 }

/-- `fetchPageViaBackground` (content.js 514-553). The `try` block returns a
`Promise` without awaiting it, so a later rejection of that promise (the
`reject(...)` calls in the `sendMessage` callback) is NOT intercepted by the
surrounding `catch`; only a synchronous throw of `sendMessage` reaches the
`catch` and produces the placeholder. `Except.error` models a rejected
promise propagating to the awaiting caller. -/
def fetchPageViaBackground (url : String) (env : FetchEnv) : Except String PageContent :=
  match env.bg with
  | .ok html => .ok (env.parse html)
  | .fail err => .error err
  | .sendThrow err => .ok (bgFailurePlaceholder url err)

/-- `fetchPageViaFetch` (content.js 475-509): direct fetch; on any failure
the `catch` delegates to (and awaits) the background proxy. -/
def fetchPageViaFetch (url : String) (env : FetchEnv) : Except String PageContent :=
  match env.direct with
  | .ok html => .ok (env.parse html)
  | .fail _ => fetchPageViaBackground url env

/-- `fetchPageContent` (content.js 456-470): current page is read directly;
otherwise `fetchPageViaFetch`; the `catch` logs and RE-THROWS
(`throw error`), so an error is propagated unchanged. -/
def fetchPageContent (url : String) (env : FetchEnv) : Except String PageContent :=
  if env.isCurrentPage then .ok env.currentContent
  else fetchPageViaFetch url env

/-! ## Batch page fetching (content.js 390-451) -/

/-- One discovered page link `{url, title, level}` (the held DOM `element` is
dropped; it is never read after discovery). -/
structure PageLink where
  url : String
  title : String
  level : Nat
deriving Repr, DecidableEq

/-- One entry of the `contents` array built by `batchFetchPages`:
the spread link fields plus `content` and `index`. -/
structure PageEntry extends PageLink where
  content : PageContent
  index : Nat
deriving Repr, DecidableEq

/-- Placeholder pushed when the fetched content is empty
(`textLength = 0`), content.js 415-424. -/
def emptyPlaceholder (title : String) : PageContent :=
  { html := "<p>此页面内容无法获取</p>", title := title, styles := "", textLength := 0 }

/-- Placeholder pushed when `fetchPageContent` threw, content.js 430-439. -/
def errorPlaceholder (title msg : String) : PageContent :=
  { html := "<p>页面抓取失败: " ++ msg ++ "</p>", title := title, styles := "", textLength := 0 }

/-- The body of one iteration of the `batchFetchPages` loop: fetch, then on
success with non-empty text keep the content, on empty content or a thrown
error push the corresponding placeholder. `fetch` is `fetchPageContent` as a
function of the URL (the rest of the host environment fixed). -/
def fetchEntry (fetch : String → Except String PageContent) (i : Nat) (link : PageLink) :
    PageEntry :=
  match fetch link.url with
  | .ok c =>
      if 0 < c.textLength then { toPageLink := link, content := c, index := i }
      else { toPageLink := link, content := emptyPlaceholder link.title, index := i }
  | .error msg => { toPageLink := link, content := errorPlaceholder link.title msg, index := i }

/-- `batchFetchPages` (content.js 390-451): strictly sequential loop over the
links, one entry pushed per link (the inter-request delay and progress UI are
timing only). -/
def batchFetchPages (fetch : String → Except String PageContent) (links : List PageLink) :
    List PageEntry :=
  links.enum.map (fun p => fetchEntry fetch p.1 p.2)

/-! ## Link discovery (content.js 83-174) -/

/-- What `calculateLinkLevel` observes about one ancestor element on the
`parentElement` chain (innermost first): whether it matches the stop
selector `'nav, .sidebar, .menu'` and whether it matches `'li, .nav-item'`. -/
structure AncestorInfo where
  isNavContainer : Bool
  isListItem : Bool
deriving Repr, DecidableEq

/-- One anchor returned by the navigation-selector queries, with the data the
discovery code reads from it. `href` is the raw attribute (the `a[href]`
selectors guarantee it exists; an empty value is falsy in JS). -/
structure Anchor where
  href : String
  text : String
  className : String
  ancestors : List AncestorInfo
deriving Repr, DecidableEq

/-- The `while` loop of `calculateLinkLevel` (content.js 159-166): walk up
until a `nav`/`.sidebar`/`.menu` container, counting `li`/`.nav-item`
ancestors. -/
def countListAncestors : List AncestorInfo → Nat
  | [] => 0
  | a :: rest =>
      if a.isNavContainer then 0
      else (if a.isListItem then 1 else 0) + countListAncestors rest

/-- Substring containment, JS `String.prototype.includes` (case-sensitive;
callers lowercase beforehand where the source does). -/
def strIncludes (s pat : String) : Bool :=
  decide (pat.data <:+: s.data)

/-- JS `String.prototype.toLowerCase` (character-wise, as for the ASCII
data these checks concern). -/
def strToLower (s : String) : String :=
  String.mk (s.data.map Char.toLower)

/-- JS `String.prototype.startsWith`. -/
def strStartsWith (s pre : String) : Bool :=
  pre.data.isPrefixOf s.data

/-- JS `String.prototype.endsWith`. -/
def strEndsWith (s post : String) : Bool :=
  post.data.isSuffixOf s.data

/-- `s.substring(n)` / dropping the first `n` characters. -/
def strDrop (s : String) (n : Nat) : String :=
  String.mk (s.data.drop n)

/-- `calculateLinkLevel` (content.js 156-174): nesting depth, overridden by
class-name hints, clamped to 6. -/
def calculateLinkLevel (a : Anchor) : Nat :=
  let level := 1 + countListAncestors a.ancestors
  let cls := strToLower a.className
  let level := if strIncludes cls "level-2" || strIncludes cls "sub" then 2 else level
  let level := if strIncludes cls "level-3" || strIncludes cls "subsub" then 3 else level
  Nat.min level 6

/-- `isValidDocumentLink` (content.js 132-146): reject empty href, external
http(s) links (negative lookahead for the site's own host), script/mail/tel
schemes, non-HTML file extensions and bare-`#` anchors. -/
def isValidDocumentLink (href : String) : Bool :=
  if href = "" then false
  else
    let lower := strToLower href
    let externalHttp :=
      (strStartsWith lower "http://" && !strIncludes (strDrop lower 7) "duruofu.github.io") ||
      (strStartsWith lower "https://" && !strIncludes (strDrop lower 8) "duruofu.github.io")
    let badExt := [".pdf", ".jpg", ".jpeg", ".png", ".gif", ".zip", ".rar"].any
      (fun e => strEndsWith lower e)
    !(externalHttp || strStartsWith lower "javascript:" || strStartsWith lower "mailto:" ||
      strStartsWith lower "tel:" || badExt || strEndsWith href "#")

/-- `resolveUrl` (content.js 148-154): `new URL(href, location.href).href`,
with the catch returning `href` unchanged. The URL constructor is a host
oracle `resolve`; `none` models a throw. -/
def resolveUrl (resolve : String → Option String) (href : String) : String :=
  (resolve href).getD href

/-- The body of the anchor loop in `discoverAllPages` (content.js 102-118):
a valid link is pushed only if its resolved URL is not already present. -/
def collectStep (resolve : String → Option String) (links : List PageLink) (a : Anchor) :
    List PageLink :=
  if isValidDocumentLink a.href then
    let fullUrl := resolveUrl resolve a.href
    if links.any (fun l => l.url == fullUrl) then links
    else links ++ [{ url := fullUrl, title := jsTrim a.text, level := calculateLinkLevel a }]
  else links

/-- The selector loops of `discoverAllPages` (content.js 100-119): `anchors`
is the concatenation of the seven `querySelectorAll` results in selector
order (each in document order). -/
def collectLinks (resolve : String → Option String) (anchors : List Anchor) : List PageLink :=
  anchors.foldl (collectStep resolve) []

/-- Stable insertion of `x` after all strictly smaller levels and before all
equal levels. -/
def insertByLevel (x : PageLink) : List PageLink → List PageLink
  | [] => [x]
  | y :: ys => if y.level < x.level then y :: insertByLevel x ys else x :: y :: ys

/-- `links.sort((a, b) => a.level - b.level)` (content.js 122-126).
`Array.prototype.sort` is a stable sort, and a stable sort by a total key is
uniquely determined, here realized as a stable insertion sort. -/
def sortByLevel : List PageLink → List PageLink
  | [] => []
  | x :: xs => insertByLevel x (sortByLevel xs)

/-- `discoverAllPages` (content.js 83-130): collect, dedup by URL, stable
sort by level. -/
def discoverAllPages (resolve : String → Option String) (anchors : List Anchor) :
    List PageLink :=
  sortByLevel (collectLinks resolve anchors)

/-! ## Decimal and hexadecimal printing (JS number-to-string)

`${n}` and `n.toString(16)` for non-negative integers, structurally
recursive (fuel = the number itself, always sufficient since a number has
at most `n + 1` digits). -/

/-- ASCII digit character for `n < 10`. -/
def decDigitChar (n : Nat) : Char := Char.ofNat (48 + n)

/-- Hex digit character for `n < 16` (lowercase, as JS `toString(16)`). -/
def hexDigitChar (n : Nat) : Char :=
  if n < 10 then Char.ofNat (48 + n) else Char.ofNat (87 + n)

def toDecAux : Nat → Nat → List Char → List Char
  | 0, _, acc => acc
  | fuel + 1, n, acc =>
      if n < 10 then decDigitChar n :: acc
      else toDecAux fuel (n / 10) (decDigitChar (n % 10) :: acc)

/-- JS decimal rendering of a non-negative integer (template-literal
`${n}`). -/
def toDec (n : Nat) : String := String.mk (toDecAux (n + 1) n [])

def toHexAux : Nat → Nat → List Char → List Char
  | 0, _, acc => acc
  | fuel + 1, n, acc =>
      if n < 16 then hexDigitChar n :: acc
      else toHexAux fuel (n / 16) (hexDigitChar (n % 16) :: acc)

/-- JS `n.toString(16)` for a non-negative integer. -/
def toHex (n : Nat) : String := String.mk (toHexAux (n + 8) n [])

/-- JS `String.prototype.padStart(w, c)` for a one-character pad. -/
def padStart (s : String) (w : Nat) (c : Char) : String :=
  String.mk (List.replicate (w - s.length) c ++ s.data)

/-! ## The URL hash of `generateImageFileName` (part_002 lines 2338-2352) -/

/-- Coercion to a signed 32-bit integer (`x & x` / the implicit `ToInt32` of
the `<<` operator). -/
def js32 (z : Int) : Int := (z + 2 ^ 31) % 2 ^ 32 - 2 ^ 31

/-- One iteration of the hash loop:
`hash = ((hash << 5) - hash) + char; hash = hash & hash;`.
The intermediate product and sum are exact in doubles for 32-bit inputs.
`charCodeAt` is modelled by the character's code point (identical on the
basic multilingual plane). -/
def hashStep (h : Int) (c : Char) : Int :=
  js32 (js32 (h * 32) - h + (c.toNat : Int))

/-- The full hash loop over the URL, starting from 0. -/
def urlHash (url : String) : Int := url.data.foldl hashStep 0

/-- `Math.abs(hash).toString(16).padStart(8, '0')`. -/
def hashHex (url : String) : String :=
  padStart (toHex (urlHash url).natAbs) 8 '0'

/-- `generateImageFileName` (part_002 2338-2352): increment the run counter,
then build `img_<counter>_<hash>.<ext>` from the incremented value. Returns
the new counter and the filename. -/
def generateImageFileName (counter : Nat) (url ext : String) : Nat × String :=
  let c := counter + 1
  (c, "img_" ++ toDec c ++ "_" ++ hashHex url ++ "." ++ ext)

/-! ## Parsed HTML trees

The browser's `DOMParser` output is modelled as a tree of element and text
nodes; tag names are stored uppercase, as `tagName` reports them for HTML
elements. -/

inductive HNode where
  | text (s : String)
  | elem (tag : String) (attrs : List (String × String)) (children : List HNode)

/-- `getAttribute`: `none` models `null` (attribute absent). -/
def getAttr (attrs : List (String × String)) (name : String) : Option String :=
  (attrs.find? (fun p => p.1 == name)).map (·.2)

mutual

def nodeSize : HNode → Nat
  | .text _ => 1
  | .elem _ _ cs => 1 + nodesSize cs

def nodesSize : List HNode → Nat
  | [] => 0
  | c :: cs => nodeSize c + nodesSize cs

end

mutual

/-- `node.textContent`: concatenation of all descendant text. -/
def textContent : HNode → String
  | .text s => s
  | .elem _ _ cs => textContentList cs

def textContentList : List HNode → String
  | [] => ""
  | c :: cs => textContent c ++ textContentList cs

end

/-- Whether an inline `style` attribute contains the given declaration
(the code reads `node.style.display` / `node.style.visibility`, which for a
freshly parsed tree reflect the `style` attribute). -/
def styleDeclIs (s propName v : String) : Bool :=
  (s.splitOn ";").any (fun d =>
    match d.splitOn ":" with
    | [p, w] => jsTrim p == propName && jsTrim w == v
    | _ => false)

/-- `node.style.display === 'none' || node.style.visibility === 'hidden'`. -/
def styleHidden (attrs : List (String × String)) : Bool :=
  match getAttr attrs "style" with
  | none => false
  | some s => styleDeclIs s "display" "none" || styleDeclIs s "visibility" "hidden"

/-! ## The Markdown converter `_convertNodeToMarkdown`
(content.js 296-385 = part_002 448-537; the two copies are identical). -/

inductive LKind where
  | ol
  | ul
deriving Repr, DecidableEq

/-- The `listState` object threaded through the conversion. All fields start
`undefined` (`none`); `start` is only ever set to values `≥ 1`, so the JS
falsiness test `!childListState.start` is `= none`. -/
structure ListState where
  type : Option LKind := none
  start : Option Nat := none
  index : Option Nat := none
  level : Option Nat := none
deriving Repr, DecidableEq

def tagOf : HNode → Option String
  | .text _ => none
  | .elem t _ _ => some t

/-- The per-child `childListState` computation (content.js 311-324). Note
that the copy `{...listState}` is rebuilt from the PARENT's own `listState`
for every child, so the `start++` increment is lost between siblings. -/
def childListState (parentTag : String) (ls : ListState) (child : HNode) : ListState :=
  if parentTag = "OL" then
    let s1 : ListState := { ls with type := some .ol }
    let s2 := if s1.start = none then { s1 with start := some 1 } else s1
    if tagOf child = some "LI" then
      { s2 with index := s2.start, start := s2.start.map (· + 1) }
    else s2
  else if parentTag = "UL" then { ls with type := some .ul }
  else if ls.type.isSome then { ls with level := some (ls.level.getD 0 + 1) }
  else ls

/-- `.replace(/(\r\n|\n|\r)/gm, " ")`. -/
def replaceNewlines : List Char → List Char
  | [] => []
  | '\r' :: '\n' :: cs => ' ' :: replaceNewlines cs
  | '\n' :: cs => ' ' :: replaceNewlines cs
  | '\r' :: cs => ' ' :: replaceNewlines cs
  | c :: cs => c :: replaceNewlines cs

/-- `.replace(/\s+/g, ' ')`: each maximal whitespace run becomes one
space. -/
def collapseWsGo : Bool → List Char → List Char
  | _, [] => []
  | prevWs, c :: cs =>
      if isJsWs c then (if prevWs then [] else [' ']) ++ collapseWsGo true cs
      else c :: collapseWsGo false cs

/-- The text-node normalization of the converter (content.js 301). -/
def jsTextCollapse (s : String) : String :=
  String.mk (collapseWsGo false (replaceNewlines s.data))

/-- `.replace(/\|/g, '\\|')` for table cells. -/
def escapePipes (s : String) : String :=
  String.mk (s.data.foldr (fun c acc => (if c = '|' then ['\\', '|'] else [c]) ++ acc) [])

/-- A `tr` descendant found by the table queries, together with whether a
`pre`/`code`/`tbody` element lies on the path from the table to it (the
`closest` calls made while converting its cells observe real ancestors). -/
structure TrHit where
  row : HNode
  inPre : Bool
  inPreCode : Bool
  inTbody : Bool

/-- A `th`/`td` descendant found inside a row. -/
structure CellHit where
  cell : HNode
  tag : String
  inPre : Bool
  inPreCode : Bool

mutual

/-- All `TR` descendants in document order (pre-order), with ancestor
flags; models `querySelector('thead tr, tr')` (whose first match is simply
the first `tr`) and `querySelectorAll('tbody tr')` (the `inTbody` ones). -/
def collectTrs (p pc tb : Bool) : HNode → List TrHit
  | .text _ => []
  | .elem tag attrs cs =>
      (if tag = "TR" then [⟨.elem tag attrs cs, p, pc, tb⟩] else []) ++
      collectTrsList (p || tag == "PRE") (pc || tag == "PRE" || tag == "CODE")
        (tb || tag == "TBODY") cs

def collectTrsList (p pc tb : Bool) : List HNode → List TrHit
  | [] => []
  | c :: cs => collectTrs p pc tb c ++ collectTrsList p pc tb cs

end

mutual

/-- All `TH`/`TD` descendants in document order; models
`row.querySelectorAll('th, td')` and `row.querySelectorAll('td')`. -/
def collectCells (p pc : Bool) : HNode → List CellHit
  | .text _ => []
  | .elem tag attrs cs =>
      (if tag = "TH" || tag = "TD" then [⟨.elem tag attrs cs, tag, p, pc⟩] else []) ++
      collectCellsList (p || tag == "PRE") (pc || tag == "PRE" || tag == "CODE") cs

def collectCellsList (p pc : Bool) : List HNode → List CellHit
  | [] => []
  | c :: cs => collectCells p pc c ++ collectCellsList p pc cs

end

/-- `_convertNodeToMarkdown`. `inPre` / `inPreCode` model the
`closest('pre')` / `parentNode.closest('pre, code')` ancestor tests, carried
down the recursion. `fuel` makes the table-cell re-entry structurally
recursive; it is consumed once per tree level, so any fuel of at least the
node's size is sufficient and `convertNode` below fixes it at that. -/
def convertNodeF : Nat → HNode → ListState → Bool → Bool → String
  | 0, _, _, _, _ => ""
  | _ + 1, .text s, _, _, inPreCode =>
      if inPreCode then s else jsTextCollapse s
  | fuel + 1, .elem tag attrs cs, ls, inPre, inPreCode =>
      if styleHidden attrs then ""
      else
        let cInPre := inPre || tag == "PRE"
        let cInPreCode := inPreCode || tag == "PRE" || tag == "CODE"
        let childrenContent := String.join (cs.map (fun c =>
          convertNodeF fuel c (childListState tag ls c) cInPre cInPreCode))
        let sep := "\n\n"
        let trimContent := jsTrim childrenContent
        match tag with
        | "H1" => "# " ++ trimContent ++ sep
        | "H2" => "## " ++ trimContent ++ sep
        | "H3" => "### " ++ trimContent ++ sep
        | "H4" => "#### " ++ trimContent ++ sep
        | "H5" => "##### " ++ trimContent ++ sep
        | "H6" => "###### " ++ trimContent ++ sep
        | "P" => trimContent ++ sep
        | "BLOCKQUOTE" =>
            String.intercalate "\n" ((trimContent.splitOn "\n").map (fun line => "> " ++ line))
              ++ sep
        | "PRE" => "```\n" ++ jsTrim (textContentList cs) ++ "\n```" ++ sep
        | "CODE" => if inPre then trimContent else "`" ++ trimContent ++ "`"
        | "A" =>
            let href := (getAttr attrs "href").getD ""
            if href = "" then childrenContent
            else "[" ++ childrenContent ++ "](" ++ href ++ ")"
        | "IMG" =>
            "![" ++ ((getAttr attrs "alt").getD "") ++ "](" ++
              ((getAttr attrs "src").getD "") ++ ")\n"
        | "STRONG" => "**" ++ childrenContent ++ "**"
        | "B" => "**" ++ childrenContent ++ "**"
        | "EM" => "*" ++ childrenContent ++ "*"
        | "I" => "*" ++ childrenContent ++ "*"
        | "DEL" => "~~" ++ childrenContent ++ "~~"
        | "S" => "~~" ++ childrenContent ++ "~~"
        | "HR" => "---" ++ sep
        | "BR" => "  \n"
        | "UL" => jsTrim childrenContent ++ sep
        | "OL" => jsTrim childrenContent ++ sep
        | "LI" =>
            let indent := String.join (List.replicate (ls.level.getD 0) "  ")
            if ls.type = some .ol then
              indent ++ (match ls.index with | some n => toDec n | none => "undefined") ++
                ". " ++ trimContent ++ "\n"
            else indent ++ "* " ++ trimContent ++ "\n"
        | "TABLE" =>
            let trs := collectTrsList cInPre cInPreCode false cs
            let headerPart :=
              match trs.head? with
              | none => ""
              | some hr =>
                  let rcells := match hr.row with
                    | .elem _ _ rcs => collectCellsList hr.inPre hr.inPreCode rcs
                    | .text _ => []
                  let headers := rcells.map (fun ch =>
                    jsTrim (convertNodeF fuel ch.cell {} ch.inPre ch.inPreCode))
                  "| " ++ String.intercalate " | " headers ++ " |\n" ++
                  "| " ++ String.intercalate " | " (headers.map (fun _ => "---")) ++ " |\n"
            let bodyPart := String.join ((trs.filter (·.inTbody)).map (fun rh =>
              let rcells := match rh.row with
                | .elem _ _ rcs => collectCellsList rh.inPre rh.inPreCode rcs
                | .text _ => []
              let cellStrs := (rcells.filter (fun ch => ch.tag == "TD")).map (fun ch =>
                escapePipes (jsTrim (convertNodeF fuel ch.cell {} ch.inPre ch.inPreCode)))
              "| " ++ String.intercalate " | " cellStrs ++ " |\n"))
            headerPart ++ bodyPart ++ "\n"
        | "SCRIPT" => ""
        | "STYLE" => ""
        | "BODY" => childrenContent
        | "DIV" => childrenContent
        | "SPAN" => childrenContent
        | "SECTION" => childrenContent
        | "ARTICLE" => childrenContent
        | "MAIN" => childrenContent
        | "HEADER" => childrenContent
        | "FOOTER" => childrenContent
        | "NAV" => childrenContent
        | "THEAD" => childrenContent ++ " "
        | "TBODY" => childrenContent ++ " "
        | "TR" => childrenContent ++ " "
        | "TH" => childrenContent ++ " "
        | "TD" => childrenContent ++ " "
        | _ => childrenContent

/-- `_convertNodeToMarkdown(node, listState)` with sufficient fuel. -/
def convertNode (n : HNode) (ls : ListState) (inPre inPreCode : Bool) : String :=
  convertNodeF (nodeSize n) n ls inPre inPreCode

/-- `htmlToMarkdown` (content.js 289-294) applied to the already-parsed
document body (`DOMParser` is a host facility). The body element has no
`pre`/`code` ancestor and the initial `listState` is `{}`. -/
def htmlToMarkdown (body : HNode) : String :=
  convertNode body {} false false

/-! ## Image collection (part_002 2358-2408, `collectImagesFromHTML`) -/

/-- One collected image reference
`{url, altText, title, context, pageTitle}`. -/
structure ImgInfo where
  url : String
  altText : String
  title : String
  context : String
  pageTitle : String
deriving Repr, DecidableEq

/-- The per-`img` body of the collection loop: skip a missing or empty
(falsy) `src`, skip when the `new URL` resolution throws (`resolve` returns
`none`), skip `data:` URLs; otherwise record the absolute URL, alt text,
title and a trimmed 50-character snippet of the parent's text. -/
def processImg (resolve : String → Option String) (pageTitle parentText : String)
    (attrs : List (String × String)) : List ImgInfo :=
  match getAttr attrs "src" with
  | none => []
  | some src =>
      if src = "" then []
      else
        match resolve src with
        | none => []
        | some u =>
            if strStartsWith u "data:" then []
            else [{ url := u, altText := (getAttr attrs "alt").getD "",
                    title := (getAttr attrs "title").getD "",
                    context := jsTrim (String.mk (parentText.data.take 50)),
                    pageTitle := pageTitle }]

mutual

/-- `doc.querySelectorAll('img')` in document order, processing each hit;
`parentText` is the `textContent` of the node's parent element. -/
def collectImages (resolve : String → Option String) (pageTitle parentText : String) :
    HNode → List ImgInfo
  | .text _ => []
  | .elem tag attrs cs =>
      (if tag = "IMG" then processImg resolve pageTitle parentText attrs else []) ++
      collectImagesList resolve pageTitle (textContentList cs) cs

def collectImagesList (resolve : String → Option String) (pageTitle parentText : String) :
    List HNode → List ImgInfo
  | [] => []
  | c :: cs =>
      collectImages resolve pageTitle parentText c ++
      collectImagesList resolve pageTitle parentText cs

end

/-- One `imageUrlMap` insertion (part_002 252-256): keep the first-seen
record per URL. -/
def dedupStep (acc : List ImgInfo) (i : ImgInfo) : List ImgInfo :=
  if acc.any (fun j => j.url == i.url) then acc else acc ++ [i]

/-- The `imageUrlMap` deduplication of `generateCompleteMarkdown` (part_002
250-257): a `Map` keyed by URL keeps the first-seen record per URL, in
first-occurrence order. -/
def dedupByUrl (infos : List ImgInfo) : List ImgInfo :=
  infos.foldl dedupStep []

/-! ## Image download (part_002 2285-2332 and 2414-2492) -/

/-- A successful `downloadImageAsBlob` result `{blob, extension}`; the blob
is an opaque token for the binary content. `downloadImageAsBlob` catches
every error and returns `null`, modelled as the oracle returning `none`. -/
structure DownloadOk where
  blob : String
  extension : String
deriving Repr, DecidableEq

/-- One `imageMap` value `{localPath, blob, fileName, originalUrl}`. -/
structure ImageEntry where
  localPath : String
  blob : String
  fileName : String
  originalUrl : String
deriving Repr, DecidableEq

/-- One `failedImages` record `{url, error, pageTitle, altText}`; `context`
stays `undefined` (here `""`) until the update loop in
`generateCompleteMarkdown` fills it in. -/
structure FailedImage where
  url : String
  error : String
  pageTitle : String
  altText : String
  context : String := ""
deriving Repr, DecidableEq

/-- The per-run image state of the generator plus two instrumentation logs:
`downloadLog` records each URL passed to `downloadImageAsBlob`, and `genLog`
records each `generateImageFileName` call as (counter used, url, extension).
The logs only observe the computation. -/
structure ImgState where
  imageMap : List (String × ImageEntry) := []
  imageCounter : Nat := 0
  failedImages : List FailedImage := []
  downloadLog : List String := []
  genLog : List (Nat × String × String) := []
deriving Repr, DecidableEq

/-- `this.imageMap.get(url)` / `has(url)` on the insertion-ordered map. -/
def mapFind : List (String × ImageEntry) → String → Option ImageEntry
  | [], _ => none
  | p :: m, u => if p.1 == u then some p.2 else mapFind m u

/-- The filename produced for counter `c`, url and extension (what
`generateImageFileName` returns after bumping the counter to `c`). -/
def genFileName (g : Nat × String × String) : String :=
  "img_" ++ toDec g.1 ++ "_" ++ hashHex g.2.1 ++ "." ++ g.2.2

/-- The body of the per-URL closure in `batchDownloadImages` (part_002
2423-2444) plus the `allSettled` result handling (2448-2474): a cached URL
is returned without a download; otherwise the blob is fetched, and either an
`imageMap` entry with `./images/<filename>` is created or a failure record
is appended. -/
def downloadStep (download : String → Option DownloadOk) (pageTitle : String)
    (acc : ImgState × List ImageEntry) (url : String) : ImgState × List ImageEntry :=
  let st := acc.1
  let dl := acc.2
  match mapFind st.imageMap url with
  | some e => (st, dl ++ [e])
  | none =>
      let st1 := { st with downloadLog := st.downloadLog ++ [url] }
      match download url with
      | some r =>
          let fn := (generateImageFileName st1.imageCounter url r.extension).2
          let entry : ImageEntry :=
            { localPath := "./images/" ++ fn, blob := r.blob, fileName := fn,
              originalUrl := url }
          ({ st1 with imageCounter := st1.imageCounter + 1,
                      imageMap := st1.imageMap ++ [(url, entry)],
                      genLog := st1.genLog ++ [(st1.imageCounter + 1, url, r.extension)] },
           dl ++ [entry])
      | none =>
          ({ st1 with failedImages := st1.failedImages ++
              [{ url := url, error := "下载失败", pageTitle := pageTitle, altText := "" }] },
           dl)

/-- `batchDownloadImages` (part_002 2414-2492). The size-5 batches and the
inter-batch delay affect timing only; the per-URL effects are modelled in
list order (a linearization of the batch fan-out, which for the
duplicate-free URL lists produced by the dedup step touches disjoint map
keys). The closures never reject (`downloadImageAsBlob` catches), so the
`rejected` branch of the `allSettled` handler is dead. -/
def batchDownloadImages (download : String → Option DownloadOk) (pageTitle : String)
    (st : ImgState) (urls : List String) : ImgState × List ImageEntry :=
  urls.foldl (downloadStep download pageTitle) (st, [])

/-! ## Markdown path rewriting (part_002 2498-2523, `replaceImagePaths`)

The assembled Markdown text is modelled as a list of segments: a `txt`
segment is literal text containing no image-reference syntax for the
tracked URLs, an `image alt url` segment is one literal `![alt](url)`
occurrence — exactly what the rewrite regex
`!\[([^\]]*)\]\(<escaped url>\)` matches when `alt` has no `]` — and a
`warned` segment is the inline warning block plus the re-emitted,
broken-marked reference `![alt](url "❌ 下载失败")` (which no later
iteration's regex matches again, since no `)` follows the URL there). -/

inductive MdPiece where
  | txt (s : String)
  | image (alt url : String)
  | warned (alt url reason : String)
deriving Repr, DecidableEq

/-- The `[^\]]*` capture of the rewrite regex: the alt text of a matchable
occurrence contains no `]`. -/
def altOk (alt : String) : Bool :=
  !(alt.data.contains ']')

/-- Rendering a segment back to Markdown text. -/
def renderPiece : MdPiece → String
  | .txt s => s
  | .image alt u => "![" ++ alt ++ "](" ++ u ++ ")"
  | .warned alt u r =>
      "\n\n> ⚠️ **图片加载失败** - 请手动处理\n> \n> 原因: " ++ r ++
      "\n> \n> 原始链接: [点击查看](<" ++ u ++ ">)\n\n![" ++ alt ++ "](" ++ u ++
      " \"❌ 下载失败\")"

/-- The effect of one `imageMap` entry's
`updatedContent.replace(regex, ...)` on one segment: a matchable occurrence
of the entry's URL is rewritten to the local path. -/
def rewriteOkPiece (p : String × ImageEntry) : MdPiece → MdPiece
  | .image alt u => if u == p.1 && altOk alt then .image alt p.2.localPath else .image alt u
  | piece => piece

/-- Pass 1 of `replaceImagePaths` (part_002 2501-2509): for each `imageMap`
entry in insertion order, rewrite every matchable occurrence of its URL to
the local path. -/
def rewriteOkFold (m : List (String × ImageEntry)) (doc : List MdPiece) : List MdPiece :=
  m.foldl (fun d p => d.map (rewriteOkPiece p)) doc

/-- The effect of one failed image's `replace` on one segment: the
matchable occurrence becomes the warning block (original URL preserved). -/
def rewriteFailedPiece (f : FailedImage) : MdPiece → MdPiece
  | .image alt u => if u == f.url && altOk alt then .warned alt f.url f.error else .image alt u
  | piece => piece

/-- Pass 2 of `replaceImagePaths` (part_002 2511-2520): for each failed
image, replace every matchable occurrence of its URL with the warning
block. -/
def rewriteFailedFold (failed : List FailedImage) (doc : List MdPiece) : List MdPiece :=
  failed.foldl (fun d f => d.map (rewriteFailedPiece f)) doc

/-- `replaceImagePaths`: pass 1 then pass 2 over the whole document. -/
def replaceImagePaths (m : List (String × ImageEntry)) (failed : List FailedImage)
    (doc : List MdPiece) : List MdPiece :=
  rewriteFailedFold failed (rewriteOkFold m doc)

/-! ## The failure report (part_002 2529-2608, `generateFailureReport`) -/

/-- The `groupedByPage` map (insertion-ordered, appending to the group of an
already-seen page title; a falsy title becomes `'未知页面'`). -/
def groupByPage (failed : List FailedImage) : List (String × List FailedImage) :=
  failed.foldl
    (fun acc img =>
      let pt := if img.pageTitle = "" then "未知页面" else img.pageTitle
      if acc.any (fun g => g.1 == pt) then
        acc.map (fun g => if g.1 == pt then (g.1, g.2 ++ [img]) else g)
      else acc ++ [(pt, [img])]) []

/-- The failure records in the order the report prints them (one numbered
`### <index>. 图片信息` section each). -/
def reportFailureEntries (failed : List FailedImage) : List FailedImage :=
  (groupByPage failed).flatMap (fun g => g.2)

/-- One numbered per-image section of the report (part_002 2554-2591). -/
def failEntry (idx : Nat) (img : FailedImage) : String :=
  "### " ++ toDec idx ++ ". 图片信息\n\n" ++
  (if img.altText ≠ "" then "- **图片描述**: " ++ img.altText ++ "\n" else "") ++
  (if img.context ≠ "" then "- **上下文**: " ++ img.context ++ "...\n" else "") ++
  "- **失败原因**: `" ++ img.error ++ "`\n" ++
  "- **原始链接**: \n  ```\n  " ++ img.url ++ "\n  ```\n" ++
  "\n**处理建议**:\n" ++
  (if strIncludes img.error "CORS" || strIncludes img.error "blocked" then
    "- ✅ 在浏览器中打开链接，右键保存图片\n- ✅ 使用截图工具截取网页上的图片\n- ✅ 使用浏览器的\"检查元素\"功能，在Network标签中找到图片并保存\n"
   else if strIncludes img.error "404" || strIncludes img.error "HTTP" then
    "- ⚠️ 图片链接已失效，无法访问\n- ✅ 检查网页上是否还能看到这张图片\n- ✅ 如果图片重要，尝试使用互联网档案馆（Wayback Machine）查找历史版本\n"
   else
    "- ✅ 在浏览器中直接打开链接尝试访问\n- ✅ 如果能访问，手动右键保存图片\n") ++
  "\n**替换步骤**:\n" ++
  "1. 下载或截取图片，保存到 `images/` 文件夹\n" ++
  "2. 将图片重命名为 `manual_" ++ toDec idx ++ ".jpg` (或对应格式)\n" ++
  "3. 在 Markdown 文件中搜索上述链接\n" ++
  "4. 替换为: `![" ++ (if img.altText = "" then "图片" else img.altText) ++
    "](./images/manual_" ++ toDec idx ++ ".jpg)`\n" ++
  "\n---\n\n"

/-- One page group of the report: header plus the numbered entries; the
running index is threaded across groups. -/
def failGroupString (acc : String × Nat) (g : String × List FailedImage) : String × Nat :=
  let withHeader := acc.1 ++ "## 📄 " ++ g.1 ++ "\n\n该页面有 " ++ toDec g.2.length ++
    " 张图片下载失败：\n\n"
  g.2.foldl (fun a img => (a.1 ++ failEntry a.2 img, a.2 + 1)) (withHeader, acc.2)

/-- `generateFailureReport`: `null` (`none`) when nothing failed, otherwise
the grouped report text. `now` is the host clock's
`new Date().toLocaleString('zh-CN')`. -/
def generateFailureReport (now : String) (failed : List FailedImage) : Option String :=
  if failed.length = 0 then none
  else
    let header := "# 图片下载失败报告\n\n生成时间: " ++ now ++ "\n\n共有 **" ++
      toDec failed.length ++ "** 张图片下载失败，需要手动处理。\n\n---\n\n"
    let body := ((groupByPage failed).foldl failGroupString (header, 1)).1
    let urlList := String.join (failed.map (fun img => img.url ++ "\n"))
    some (body ++ "## 📋 批量处理清单\n\n可以复制以下链接列表，使用下载工具批量下载：\n\n```text\n" ++
      urlList ++ "```\n\n---\n\n💡 **提示**: 在 Markdown 文件中搜索 \"⚠️ **图片加载失败**\" 可以快速定位所有失败的图片位置。\n")

/-- The ZIP entries written by `downloadMarkdownWithImages` (part_002
358-420): the Markdown file at the root, every downloaded image with truthy
blob and filename under `images/`, and the failure report only when one was
generated. -/
def zipEntries (safeTitle markdown : String) (images : List ImageEntry)
    (report : Option String) : List (String × String) :=
  [(safeTitle ++ ".md", markdown)] ++
  (images.filterMap (fun i =>
    if i.blob != "" && i.fileName != "" then some ("images/" ++ i.fileName, i.blob)
    else none)) ++
  (match report with
   | some r => [("⚠️ 图片失败报告.md", r)]
   | none => [])

/-! ## Top-level generation (part_002 185-337, content.js 180-269) -/

/-- The host facilities of one Markdown generation run: `DOMParser` applied
to a page's extracted HTML, the `new URL(src, location.href)` resolver, the
image downloader, and the clock. -/
structure MdEnv where
  parseBody : String → HNode
  resolve : String → Option String
  download : String → Option DownloadOk
  now : String

/-- `collectImagesFromHTML(page.content.html, page.title)` guarded by
`if (page.content && page.content.html)` (part_002 243-248). -/
def pageImages (env : MdEnv) (p : PageEntry) : List ImgInfo :=
  if p.content.html = "" then []
  else collectImages env.resolve p.title "" (env.parseBody p.content.html)

/-- The field update loop for failed images (part_002 268-275): copy the
collected alt text, context and page title from the unique image record with
the same URL, when there is one. -/
def updateFailedContext (unique : List ImgInfo) (f : FailedImage) : FailedImage :=
  match unique.find? (fun i => i.url == f.url) with
  | some i => { f with altText := i.altText, context := i.context, pageTitle := i.pageTitle }
  | none => f

/-- `[A-Za-z0-9_]`, the word characters of the anchor slug regex. -/
def isWordChar (c : Char) : Bool :=
  ('A' ≤ c && c ≤ 'Z') || ('a' ≤ c && c ≤ 'z') || c.isDigit || c == '_'

/-- `.replace(/[\s\W]+/g, '-')`: each maximal run of non-word characters
becomes a single hyphen. -/
def slugCollapse : Bool → List Char → List Char
  | _, [] => []
  | prev, c :: cs =>
      if isWordChar c then c :: slugCollapse false cs
      else (if prev then [] else ['-']) ++ slugCollapse true cs

/-- The TOC anchor: `title.trim().toLowerCase().replace(/[\s\W]+/g,
'-').replace(/^-+|-+$/g, '')` (part_002 293). -/
def slugify (title : String) : String :=
  let t := strToLower (jsTrim title)
  let collapsed := slugCollapse false t.data
  String.mk (((collapsed.dropWhile (· == '-')).reverse.dropWhile (· == '-')).reverse)

/-- The `## 目录` block (part_002 288-297), emitted only for more than one
page. -/
def tocMarkdown (pages : List PageEntry) : String :=
  if pages.length > 1 then
    "## 目录\n\n" ++
    String.join (pages.map (fun p =>
      let indent := String.join (List.replicate ((if p.level = 0 then 1 else p.level) - 1) "  ")
      let title := if p.title = "" then "未命名页面" else p.title
      indent ++ "* [" ++ title ++ "](#" ++ slugify title ++ ")\n")) ++ "\n"
  else ""

/-- One page section of the Markdown document (part_002 299-312): a level-1
heading with the page title, the converted content, and a rule.
`htmlToMarkdown` returns `''` for falsy input before parsing. -/
def pageSection (env : MdEnv) (p : PageEntry) : String :=
  "# " ++ (if p.title = "" then "未命名页面" else p.title) ++ "\n\n" ++
  (if p.content.html = "" then "" else htmlToMarkdown (env.parseBody p.content.html)) ++
  "\n\n---\n\n"

/-- The product of a Markdown run: the assembled document text (before the
path-rewrite pass, which is modelled on its occurrence segments by
`replaceImagePaths`), the downloaded images, the failure records, and the
report that `downloadMarkdownWithImages` would package. -/
structure MdArtifact where
  markdown : String
  images : List ImageEntry
  failed : List FailedImage
  report : Option String

/-- `generateCompleteMarkdown` (part_002 218-337). The second component is
the list of URLs handed to `fetchPageContent`, in order; the zero-page check
precedes `batchFetchPages`, so nothing is fetched in the error case. All
page- and image-level failures are absorbed in-band (placeholders, failure
records); the only thrown error is the empty-discovery one. The ZIP
packaging and file download are host output effects outside the model. -/
def generateCompleteMarkdown (env : MdEnv) (fetch : String → Except String PageContent)
    (optionsTitle : String) (links : List PageLink) :
    Except String MdArtifact × List String :=
  if links.length = 0 then
    (.error "未发现任何相关页面，请检查页面结构", [])
  else
    let pages := batchFetchPages fetch links
    let infos := pages.flatMap (pageImages env)
    let unique := dedupByUrl infos
    let dlRun := batchDownloadImages env.download "未知页面" {} (unique.map (fun i => i.url))
    let failed :=
      if unique.length > 0 then dlRun.1.failedImages.map (updateFailedContext unique)
      else dlRun.1.failedImages
    let header := "# " ++ optionsTitle ++ "\n\n" ++
      (if dlRun.2.length > 0 then
        "> 📝 本文档包含 " ++ toDec dlRun.2.length ++ " 张本地图片\n\n"
       else "")
    let markdown := header ++ tocMarkdown pages ++ String.join (pages.map (pageSection env))
    let report :=
      if dlRun.2.length > 0 then generateFailureReport env.now failed else none
    (.ok { markdown := markdown, images := dlRun.2, failed := failed, report := report },
     links.map (fun l => l.url))

/-- One chapter of the composite PDF document. -/
structure PdfSection where
  index : Nat
  level : Nat
  title : String
  url : String
  html : String
deriving Repr, DecidableEq

/-- `Math.min(Math.max(page.level || 1, 1), 6)` (content.js 1223/1249). -/
def clampLevel (lv : Nat) : Nat :=
  Nat.min (Nat.max (if lv = 0 then 1 else lv) 1) 6

/-- `buildCompleteDocument` (content.js 1200-1273) reduced to the data it
lays out: one TOC row and one section per page, heading tag `h<level>` with
the clamped level. The literal HTML/CSS template around these rows carries
no further run data. -/
def buildCompleteDocument (pages : List PageEntry) : List PdfSection :=
  pages.enum.map (fun p =>
    { index := p.1, level := clampLevel p.2.level,
      title := if p.2.title = "" then "未命名页面" else p.2.title,
      url := p.2.url, html := p.2.content.html })

/-- `generateCompletePDF` (content.js 180-208): discover (the caller passes
the discovered list), fail on zero pages BEFORE fetching, otherwise fetch
everything and build the composite document. Second component as in
`generateCompleteMarkdown`. -/
def generateCompletePDF (fetch : String → Except String PageContent)
    (links : List PageLink) : Except String (List PdfSection) × List String :=
  if links.length = 0 then (.error "未发现任何相关页面，请检查页面结构", [])
  else
    let pages := batchFetchPages fetch links
    (.ok (buildCompleteDocument pages), links.map (fun l => l.url))

/-! ## Supporting lemmas -/

theorem dropWhile_head?_not {α} (p : α → Bool) (l : List α) (c : α)
    (h : (l.dropWhile p).head? = some c) : p c = false := by
  induction l with
  | nil => simp at h
  | cons a l ih =>
      by_cases hp : p a
      · rw [List.dropWhile_cons_of_pos hp] at h
        exact ih h
      · rw [List.dropWhile_cons_of_neg hp] at h
        simp only [List.head?_cons, Option.some.injEq] at h
        subst h
        simpa using hp

theorem dropWhile_getLast? {α} (p : α → Bool) (l : List α)
    (h : l.dropWhile p ≠ []) : (l.dropWhile p).getLast? = l.getLast? := by
  induction l with
  | nil => simp at h
  | cons a l ih =>
      by_cases hp : p a
      · rw [List.dropWhile_cons_of_pos hp] at h ⊢
        rw [ih h, List.getLast?_cons]
        have : l ≠ [] := by
          intro he
          subst he
          simp [List.dropWhile] at h
        cases l with
        | nil => simp at this
        | cons b l' => simp [List.getLast?_cons]
      · rw [List.dropWhile_cons_of_neg hp]

/-! ## Claim theorems -/

/-- **C1** (code bug): the spec's contract is `fetch(url) -> PageContent`,
never throws. The code's intent matches (the `catch` in
`fetchPageViaBackground` builds exactly such a placeholder, commented
"返回占位内容，避免中断整个流程"), but the `try` block returns the promise
without awaiting it, so the background-proxy rejection bypasses that
`catch`, and `fetchPageContent`'s own `catch` re-throws. Concretely: a
non-current URL whose direct fetch fails and whose background proxy
responds `{success: false}` makes `fetchPageContent` throw instead of
returning the placeholder. -/
theorem c1_fetchPageContent_throws_on_background_failure :
    fetchPageContent "https://duruofu.github.io/page2.html"
      { isCurrentPage := false
        currentContent := { html := "", title := "", styles := "", textLength := 0 }
        direct := .fail "TypeError: Failed to fetch"
        bg := .fail "Background fetch failed"
        parse := fun _ => { html := "", title := "", styles := "", textLength := 0 } } =
      .error "Background fetch failed" := rfl

/-- **C7** (code bug): converting `<ol><li>one</li><li>two</li></ol>` yields
`1. one\n1. two\n\n`, not the claimed `1. one\n2. two\n`: `childListState`
is a fresh copy of the parent's `listState` for every child, so the
`start++` running counter is discarded between siblings and every ordered
item is numbered 1. -/
theorem c7_ordered_list_items_all_numbered_one :
    htmlToMarkdown (.elem "BODY" [] [.elem "OL" []
        [.elem "LI" [] [.text "one"], .elem "LI" [] [.text "two"]]]) =
      "1. one\n1. two\n\n" ∧
    htmlToMarkdown (.elem "BODY" [] [.elem "OL" []
        [.elem "LI" [] [.text "one"], .elem "LI" [] [.text "two"]]]) ≠
      "1. one\n2. two\n" := by
  constructor
  · decide
  · decide

/-- **C10** (counterexample): `cleanTitle` is not idempotent and its result
can begin with `#`. On `" #x"` no replacement fires (the leading rule is
anchored at position 0 and there is no trailing `#`), so the result is
`"#x"`; a second application strips the now-leading `#` and yields `"x"`. -/
theorem c10_cleanTitle_not_idempotent :
    cleanTitle (cleanTitle " #x") ≠ cleanTitle " #x" ∧
    (cleanTitle " #x").data.head? = some '#' := by
  constructor
  · decide
  · decide

/-- **C10** (amended): what does hold of `cleanTitle` is the trailing
`.trim()`: the result never begins or ends with whitespace. Idempotence and
the `#`-boundary property fail (see the counterexample). -/
theorem c10_cleanTitle_result_trimmed (t : String) (c : Char) :
    ((cleanTitle t).data.head? = some c → isJsWs c = false) ∧
    ((cleanTitle t).data.getLast? = some c → isJsWs c = false) := by
  by_cases ht : t = ""
  · subst ht
    have hc : cleanTitle "" = "未命名页面" := by decide
    rw [hc]
    constructor
    · intro h
      have hd : ("未命名页面").data.head? = some '未' := by decide
      rw [hd] at h
      cases h
      decide
    · intro h
      have hd : ("未命名页面").data.getLast? = some '面' := by decide
      rw [hd] at h
      cases h
      decide
  · have hc : cleanTitle t = String.mk (jsTrimList
        (stripTrailSingleHash (stripTrailHashRun (stripLeadHash t.data)))) := by
      simp [cleanTitle, ht]
    set m := stripTrailSingleHash (stripTrailHashRun (stripLeadHash t.data)) with hm
    have hdata : (cleanTitle t).data = jsTrimList m := by rw [hc]
    constructor
    · intro h
      rw [hdata] at h
      unfold jsTrimList at h
      rw [List.head?_reverse] at h
      have hne : (m.dropWhile isJsWs).reverse.dropWhile isJsWs ≠ [] := by
        intro he
        rw [he] at h
        simp at h
      rw [dropWhile_getLast? _ _ hne, List.getLast?_reverse] at h
      exact dropWhile_head?_not _ _ _ h
    · intro h
      rw [hdata] at h
      unfold jsTrimList at h
      rw [List.getLast?_reverse] at h
      exact dropWhile_head?_not _ _ _ h

/-- Witness for the amended C10 theorem at a concrete title. -/
theorem c10_cleanTitle_result_trimmed_witness : isJsWs '#' = false :=
  (c10_cleanTitle_result_trimmed " #x " '#').1 (by decide)

/-- **C3**: `batchFetchPages` returns exactly one entry per input link, in
input order; an entry whose fetch threw or whose content came back empty is
the corresponding placeholder with `textLength = 0`, never dropped; the loop
is total (the run completes). -/
theorem c3_batchFetchPages_one_entry_per_link
    (fetch : String → Except String PageContent) (links : List PageLink) :
    (batchFetchPages fetch links).length = links.length ∧
    ∀ (i : Nat) (lk : PageLink), links[i]? = some lk →
      ∃ e, (batchFetchPages fetch links)[i]? = some e ∧
        e.toPageLink = lk ∧ e.index = i ∧
        (∀ c, fetch lk.url = .ok c → 0 < c.textLength → e.content = c) ∧
        (∀ c, fetch lk.url = .ok c → c.textLength = 0 →
          e.content = emptyPlaceholder lk.title ∧ e.content.textLength = 0) ∧
        (∀ msg, fetch lk.url = .error msg →
          e.content = errorPlaceholder lk.title msg ∧ e.content.textLength = 0) := by
  refine ⟨by simp [batchFetchPages, List.enum_length], ?_⟩
  intro i lk hlk
  have hout : (batchFetchPages fetch links)[i]? = some (fetchEntry fetch i lk) := by
    simp [batchFetchPages, List.getElem?_map, List.getElem?_enum, hlk]
  refine ⟨fetchEntry fetch i lk, hout, ?_, ?_, ?_, ?_, ?_⟩
  · unfold fetchEntry
    cases hf : fetch lk.url with
    | ok c =>
        dsimp only
        split <;> rfl
    | error msg => rfl
  · unfold fetchEntry
    cases hf : fetch lk.url with
    | ok c =>
        dsimp only
        split <;> rfl
    | error msg => rfl
  · intro c hc h0
    simp only [fetchEntry, hc]
    rw [if_pos h0]
  · intro c hc h0
    simp [fetchEntry, hc, h0, emptyPlaceholder]
  · intro msg hmsg
    simp [fetchEntry, hmsg, errorPlaceholder]

/-- Witness for C3: a 404 on the single requested page still yields one
entry, a placeholder with `textLength = 0`. -/
theorem c3_batchFetchPages_witness :
    ∃ e, (batchFetchPages (fun _ => .error "HTTP 404: Not Found")
        [{ url := "https://duruofu.github.io/a", title := "A", level := 1 }])[0]? = some e ∧
      e.content.textLength = 0 := by
  obtain ⟨-, h⟩ := c3_batchFetchPages_one_entry_per_link
    (fun _ => .error "HTTP 404: Not Found")
    [{ url := "https://duruofu.github.io/a", title := "A", level := 1 }]
  obtain ⟨e, he, -, -, -, -, herr⟩ :=
    h 0 { url := "https://duruofu.github.io/a", title := "A", level := 1 } rfl
  exact ⟨e, he, (herr "HTTP 404: Not Found" rfl).2⟩

/-- **C4**: both top-level generation calls raise the single fatal error
exactly on an empty discovered page list, before any fetch is attempted
(the fetch-URL list is empty in that case); for a non-empty list they
return `ok` for EVERY fetch and download oracle, i.e. no page- or
image-level failure escapes. -/
theorem c4_generation_error_iff_empty_discovery (env : MdEnv)
    (fetch : String → Except String PageContent) (t : String) (links : List PageLink) :
    (links = [] →
      (generateCompleteMarkdown env fetch t links).1 =
        .error "未发现任何相关页面，请检查页面结构" ∧
      (generateCompleteMarkdown env fetch t links).2 = [] ∧
      (generateCompletePDF fetch links).1 =
        .error "未发现任何相关页面，请检查页面结构" ∧
      (generateCompletePDF fetch links).2 = []) ∧
    (links ≠ [] →
      (∃ a, (generateCompleteMarkdown env fetch t links).1 = .ok a) ∧
      (∃ d, (generateCompletePDF fetch links).1 = .ok d)) := by
  constructor
  · intro h
    subst h
    exact ⟨rfl, rfl, rfl, rfl⟩
  · intro h
    have hl : ¬links.length = 0 := by
      simpa [List.length_eq_zero] using h
    constructor
    · cases hgen : (generateCompleteMarkdown env fetch t links).1 with
      | ok a => exact ⟨a, rfl⟩
      | error msg =>
          exfalso
          simp only [generateCompleteMarkdown, if_neg hl] at hgen
          exact Except.noConfusion hgen
    · cases hgen : (generateCompletePDF fetch links).1 with
      | ok d => exact ⟨d, rfl⟩
      | error msg =>
          exfalso
          simp only [generateCompletePDF, if_neg hl] at hgen
          exact Except.noConfusion hgen

theorem insertByLevel_perm (x : PageLink) (l : List PageLink) :
    (insertByLevel x l).Perm (x :: l) := by
  induction l with
  | nil => exact List.Perm.refl _
  | cons y ys ih =>
      unfold insertByLevel
      by_cases h : y.level < x.level
      · rw [if_pos h]
        exact (ih.cons y).trans (List.Perm.swap x y ys)
      · rw [if_neg h]

theorem sortByLevel_perm (l : List PageLink) : (sortByLevel l).Perm l := by
  induction l with
  | nil => exact List.Perm.refl _
  | cons x xs ih =>
      exact (insertByLevel_perm x (sortByLevel xs)).trans (ih.cons x)

theorem insertByLevel_pairwise (x : PageLink) (l : List PageLink)
    (h : l.Pairwise (fun a b => a.level ≤ b.level)) :
    (insertByLevel x l).Pairwise (fun a b => a.level ≤ b.level) := by
  induction l with
  | nil => simp [insertByLevel]
  | cons y ys ih =>
      rw [List.pairwise_cons] at h
      obtain ⟨hy, hys⟩ := h
      unfold insertByLevel
      by_cases hlt : y.level < x.level
      · rw [if_pos hlt, List.pairwise_cons]
        constructor
        · intro z hz
          rcases List.mem_cons.mp ((insertByLevel_perm x ys).mem_iff.mp hz) with hzx | hz'
          · subst hzx
            omega
          · exact hy z hz'
        · exact ih hys
      · rw [if_neg hlt, List.pairwise_cons]
        constructor
        · intro z hz
          rcases List.mem_cons.mp hz with hzy | hz'
          · subst hzy
            omega
          · exact Nat.le_trans (by omega) (hy z hz')
        · exact List.pairwise_cons.mpr ⟨hy, hys⟩

theorem sortByLevel_pairwise (l : List PageLink) :
    (sortByLevel l).Pairwise (fun a b => a.level ≤ b.level) := by
  induction l with
  | nil => simp [sortByLevel]
  | cons x xs ih => exact insertByLevel_pairwise x _ ih

theorem insertByLevel_filter (x : PageLink) (l : List PageLink) (k : Nat) :
    (insertByLevel x l).filter (fun e => e.level == k) =
      (x :: l).filter (fun e => e.level == k) := by
  induction l with
  | nil => rfl
  | cons y ys ih =>
      unfold insertByLevel
      by_cases hlt : y.level < x.level
      · rw [if_pos hlt]
        by_cases hx : x.level = k
        · have hy : ¬y.level = k := by omega
          simp [List.filter_cons, hx, hy, ih]
        · by_cases hy : y.level = k <;>
            simp [List.filter_cons, hx, hy, ih]
      · rw [if_neg hlt]

theorem sortByLevel_filter (l : List PageLink) (k : Nat) :
    (sortByLevel l).filter (fun e => e.level == k) =
      l.filter (fun e => e.level == k) := by
  induction l with
  | nil => rfl
  | cons x xs ih =>
      show (insertByLevel x (sortByLevel xs)).filter _ = _
      rw [insertByLevel_filter]
      by_cases hx : x.level = k <;> simp [List.filter_cons, hx, ih]

theorem calculateLinkLevel_bounds (a : Anchor) :
    1 ≤ calculateLinkLevel a ∧ calculateLinkLevel a ≤ 6 := by
  simp only [calculateLinkLevel]
  refine ⟨Nat.le_min.mpr ⟨?_, by omega⟩, Nat.min_le_right _ _⟩
  split
  · omega
  · split <;> omega

theorem collectStep_inv (resolve : String → Option String) (links : List PageLink)
    (a : Anchor)
    (h1 : (links.map (fun l => l.url)).Nodup)
    (h2 : ∀ l ∈ links, 1 ≤ l.level ∧ l.level ≤ 6) :
    ((collectStep resolve links a).map (fun l => l.url)).Nodup ∧
    ∀ l ∈ collectStep resolve links a, 1 ≤ l.level ∧ l.level ≤ 6 := by
  unfold collectStep
  dsimp only
  split
  · split
    · exact ⟨h1, h2⟩
    · next hany =>
        constructor
        · rw [List.map_append]
          refine List.Nodup.append h1 (List.nodup_singleton _) ?_
          intro u hu hv
          simp only [List.map_cons, List.map_nil, List.mem_singleton] at hv
          subst hv
          rw [List.any_eq_true] at hany
          obtain ⟨l, hl, hl2⟩ := List.mem_map.mp hu
          exact hany ⟨l, hl, by simp [hl2]⟩
        · intro l hl
          rcases List.mem_append.mp hl with h | h
          · exact h2 l h
          · simp only [List.mem_singleton] at h
            subst h
            exact calculateLinkLevel_bounds a
  · exact ⟨h1, h2⟩

theorem foldl_collectStep_inv (resolve : String → Option String) (anchors : List Anchor) :
    ∀ init : List PageLink, (init.map (fun l => l.url)).Nodup →
      (∀ l ∈ init, 1 ≤ l.level ∧ l.level ≤ 6) →
      ((anchors.foldl (collectStep resolve) init).map (fun l => l.url)).Nodup ∧
      ∀ l ∈ anchors.foldl (collectStep resolve) init, 1 ≤ l.level ∧ l.level ≤ 6 := by
  induction anchors with
  | nil =>
      intro init h1 h2
      exact ⟨h1, h2⟩
  | cons a anchors ih =>
      intro init h1 h2
      rw [List.foldl_cons]
      obtain ⟨g1, g2⟩ := collectStep_inv resolve init a h1 h2
      exact ih _ g1 g2

/-- **C5**: for every seed page (any anchor list and URL resolver), the
discovered page list has no two entries with the same absolute URL, and
every entry's level lies in `[1, 6]`. -/
theorem c5_discovery_nodup_and_level_bounds (resolve : String → Option String)
    (anchors : List Anchor) :
    ((discoverAllPages resolve anchors).map (fun l => l.url)).Nodup ∧
    ∀ l ∈ discoverAllPages resolve anchors, 1 ≤ l.level ∧ l.level ≤ 6 := by
  obtain ⟨h1, h2⟩ := foldl_collectStep_inv resolve anchors [] (by simp) (by simp)
  have hperm : (discoverAllPages resolve anchors).Perm (collectLinks resolve anchors) :=
    sortByLevel_perm _
  constructor
  · exact ((hperm.map (fun l => l.url)).nodup_iff).mpr h1
  · intro l hl
    exact h2 l (hperm.mem_iff.mp hl)

/-- Witness for C5 on a one-anchor navigation region. -/
theorem c5_discovery_witness :
    1 ≤ ({ url := "https://duruofu.github.io/a.html", title := "A", level := 1 } :
        PageLink).level ∧
    ({ url := "https://duruofu.github.io/a.html", title := "A", level := 1 } :
        PageLink).level ≤ 6 :=
  (c5_discovery_nodup_and_level_bounds (fun s => some s)
    [{ href := "https://duruofu.github.io/a.html", text := "A", className := "",
       ancestors := [] }]).2 _ (by decide)

/-! ### Lemmas for the image-filename claim (C8) -/

/-- A lowercase hexadecimal character, as `toString(16)` produces. -/
def isHexChar (c : Char) : Bool :=
  c.isDigit || ('a' ≤ c && c ≤ 'f')

/-- The numeric value of a decimal digit string. -/
def decValList (ds : List Char) : Nat :=
  ds.foldl (fun a c => a * 10 + (c.toNat - 48)) 0

theorem str_data_append (s t : String) : (s ++ t).data = s.data ++ t.data := rfl

theorem decDigitChar_toNat (n : Nat) (h : n < 10) : (decDigitChar n).toNat = 48 + n := by
  interval_cases n <;> decide

theorem decDigitChar_isDigit (n : Nat) (h : n < 10) : (decDigitChar n).isDigit = true := by
  interval_cases n <;> decide

theorem hexDigitChar_isHex (n : Nat) (h : n < 16) : isHexChar (hexDigitChar n) = true := by
  interval_cases n <;> decide

theorem decValList_append_one (ds : List Char) (d : Char) :
    decValList (ds ++ [d]) = decValList ds * 10 + (d.toNat - 48) := by
  unfold decValList
  rw [List.foldl_append]
  rfl

theorem toDecAux_spec : ∀ (fuel n : Nat) (acc : List Char), n < 10 ^ (fuel + 1) →
    ∃ ds, toDecAux (fuel + 1) n acc = ds ++ acc ∧ ds ≠ [] ∧
      (∀ c ∈ ds, c.isDigit = true) ∧ decValList ds = n := by
  intro fuel
  induction fuel with
  | zero =>
      intro n acc h
      have h10 : n < 10 := by simpa using h
      refine ⟨[decDigitChar n], by simp [toDecAux, h10], by simp, ?_, ?_⟩
      · intro c hc
        simp only [List.mem_singleton] at hc
        subst hc
        exact decDigitChar_isDigit n h10
      · simp [decValList, decDigitChar_toNat n h10]
  | succ fuel ih =>
      intro n acc h
      by_cases h10 : n < 10
      · refine ⟨[decDigitChar n], by simp [toDecAux, h10], by simp, ?_, ?_⟩
        · intro c hc
          simp only [List.mem_singleton] at hc
          subst hc
          exact decDigitChar_isDigit n h10
        · simp [decValList, decDigitChar_toNat n h10]
      · have hdiv : n / 10 < 10 ^ (fuel + 1) := by
          refine (Nat.div_lt_iff_lt_mul (by norm_num)).mpr ?_
          calc n < 10 ^ (fuel + 1 + 1) := h
          _ = 10 ^ (fuel + 1) * 10 := by rw [pow_succ]
        have step : toDecAux (fuel + 1 + 1) n acc =
            toDecAux (fuel + 1) (n / 10) (decDigitChar (n % 10) :: acc) := by
          simp [toDecAux, h10]
        obtain ⟨ds, hds, hne, hdig, hval⟩ := ih (n / 10) (decDigitChar (n % 10) :: acc) hdiv
        refine ⟨ds ++ [decDigitChar (n % 10)], ?_, by simp, ?_, ?_⟩
        · rw [step, hds]
          simp
        · intro c hc
          rcases List.mem_append.mp hc with h1 | h1
          · exact hdig c h1
          · simp only [List.mem_singleton] at h1
            subst h1
            exact decDigitChar_isDigit _ (Nat.mod_lt _ (by norm_num))
        · rw [decValList_append_one, hval, decDigitChar_toNat _ (Nat.mod_lt _ (by norm_num))]
          omega

theorem toDec_spec (n : Nat) :
    (toDec n).data ≠ [] ∧ (∀ c ∈ (toDec n).data, c.isDigit = true) ∧
      decValList (toDec n).data = n := by
  have hn : n < 10 ^ (n + 1) :=
    Nat.lt_of_lt_of_le (Nat.lt_pow_self (by norm_num) n)
      (Nat.pow_le_pow_right (by norm_num) (by omega))
  obtain ⟨ds, hds, hne, hdig, hval⟩ := toDecAux_spec n n [] hn
  have hd : (toDec n).data = ds := by
    show toDecAux (n + 1) n [] = ds
    rw [hds, List.append_nil]
  rw [hd]
  exact ⟨hne, hdig, hval⟩

theorem toDec_data_inj (m n : Nat) (h : (toDec m).data = (toDec n).data) : m = n := by
  obtain ⟨-, -, hv1⟩ := toDec_spec m
  obtain ⟨-, -, hv2⟩ := toDec_spec n
  rw [← hv1, ← hv2, h]

theorem takeWhile_append_not {α} (p : α → Bool) (xs : List α) (y : α) (ys : List α)
    (hx : ∀ x ∈ xs, p x = true) (hy : p y = false) :
    (xs ++ y :: ys).takeWhile p = xs := by
  induction xs with
  | nil => simp [List.takeWhile_cons, hy]
  | cons a xs ih =>
      have ha : p a = true := hx a (by simp)
      simp only [List.cons_append, List.takeWhile_cons, ha, if_true]
      rw [ih (fun x hx' => hx x (by simp [hx']))]

theorem genFileName_data (c : Nat) (u e : String) :
    (genFileName (c, u, e)).data =
      "img_".data ++ ((toDec c).data ++ ('_' :: ((hashHex u).data ++ ('.' :: e.data)))) := by
  show ("img_" ++ toDec c ++ "_" ++ hashHex u ++ "." ++ e).data = _
  simp only [str_data_append, List.append_assoc]
  rfl

theorem genFileName_counter_inj (g1 g2 : Nat × String × String)
    (h : genFileName g1 = genFileName g2) : g1.1 = g2.1 := by
  obtain ⟨c1, u1, e1⟩ := g1
  obtain ⟨c2, u2, e2⟩ := g2
  have hd := congrArg String.data h
  rw [genFileName_data, genFileName_data] at hd
  have hd2 : (toDec c1).data ++ '_' :: ((hashHex u1).data ++ ('.' :: e1.data)) =
      (toDec c2).data ++ '_' :: ((hashHex u2).data ++ ('.' :: e2.data)) :=
    List.append_cancel_left hd
  have ht1 := takeWhile_append_not Char.isDigit (toDec c1).data '_'
    ((hashHex u1).data ++ '.' :: e1.data) (toDec_spec c1).2.1 (by decide)
  have ht2 := takeWhile_append_not Char.isDigit (toDec c2).data '_'
    ((hashHex u2).data ++ '.' :: e2.data) (toDec_spec c2).2.1 (by decide)
  have : (toDec c1).data = (toDec c2).data := by
    rw [← ht1, ← ht2, hd2]
  exact toDec_data_inj _ _ this

theorem js32_natAbs_le (z : Int) : (js32 z).natAbs ≤ 2 ^ 31 := by
  unfold js32
  have h1 : 0 ≤ (z + 2 ^ 31) % 2 ^ 32 := Int.emod_nonneg _ (by norm_num)
  have h2 : (z + 2 ^ 31) % 2 ^ 32 < 2 ^ 32 := Int.emod_lt_of_pos _ (by norm_num)
  have e1 : (2 : Int) ^ 31 = 2147483648 := by norm_num
  have e2 : (2 : Int) ^ 32 = 4294967296 := by norm_num
  rw [e1, e2] at *
  omega

theorem urlHash_natAbs_le (url : String) : (urlHash url).natAbs ≤ 2 ^ 31 := by
  unfold urlHash
  suffices h : ∀ (cs : List Char) (h0 : Int), h0.natAbs ≤ 2 ^ 31 →
      (cs.foldl hashStep h0).natAbs ≤ 2 ^ 31 by
    exact h _ 0 (by norm_num)
  intro cs
  induction cs with
  | nil =>
      intro h0 hh
      simpa using hh
  | cons c cs ih =>
      intro h0 hh
      rw [List.foldl_cons]
      exact ih _ (js32_natAbs_le _)

theorem toHexAux_spec : ∀ (k fuel : Nat), k ≤ fuel → ∀ (n : Nat) (acc : List Char),
    n < 16 ^ (k + 1) →
    ∃ ds, toHexAux (fuel + 1) n acc = ds ++ acc ∧ 1 ≤ ds.length ∧ ds.length ≤ k + 1 ∧
      ∀ c ∈ ds, isHexChar c = true := by
  intro k
  induction k with
  | zero =>
      intro fuel _ n acc h
      have h16 : n < 16 := by simpa using h
      refine ⟨[hexDigitChar n], by simp [toHexAux, h16], by simp, by simp, ?_⟩
      intro c hc
      simp only [List.mem_singleton] at hc
      subst hc
      exact hexDigitChar_isHex n h16
  | succ k ih =>
      intro fuel hk n acc h
      by_cases h16 : n < 16
      · refine ⟨[hexDigitChar n], by simp [toHexAux, h16], by simp, by simp, ?_⟩
        intro c hc
        simp only [List.mem_singleton] at hc
        subst hc
        exact hexDigitChar_isHex n h16
      · obtain ⟨fuel', rfl⟩ : ∃ f', fuel = f' + 1 := ⟨fuel - 1, by omega⟩
        have hdiv : n / 16 < 16 ^ (k + 1) := by
          refine (Nat.div_lt_iff_lt_mul (by norm_num)).mpr ?_
          calc n < 16 ^ (k + 1 + 1) := h
          _ = 16 ^ (k + 1) * 16 := by rw [pow_succ]
        have step : toHexAux (fuel' + 1 + 1) n acc =
            toHexAux (fuel' + 1) (n / 16) (hexDigitChar (n % 16) :: acc) := by
          simp [toHexAux, h16]
        obtain ⟨ds, hds, hl1, hl2, hhex⟩ :=
          ih fuel' (by omega) (n / 16) (hexDigitChar (n % 16) :: acc) hdiv
        refine ⟨ds ++ [hexDigitChar (n % 16)], ?_, by simp, by simp; omega, ?_⟩
        · rw [step, hds]
          simp
        · intro c hc
          rcases List.mem_append.mp hc with h1 | h1
          · exact hhex c h1
          · simp only [List.mem_singleton] at h1
            subst h1
            exact hexDigitChar_isHex _ (Nat.mod_lt _ (by norm_num))

/-- The 8-hex-character property of the URL hash: `Math.abs` of a 32-bit
value is below `16^8`, so `toString(16)` has at most 8 digits and
`padStart(8, '0')` makes it exactly 8. -/
theorem hashHex_spec (url : String) :
    (hashHex url).length = 8 ∧ ∀ c ∈ (hashHex url).data, isHexChar c = true := by
  have hb : (urlHash url).natAbs < 16 ^ 8 := by
    have h := urlHash_natAbs_le url
    have : (2 : Nat) ^ 31 < 16 ^ 8 := by norm_num
    omega
  set m := (urlHash url).natAbs with hm
  have hfe : m + 8 = (m + 7) + 1 := by omega
  obtain ⟨ds, hds, h1, h8, hhex⟩ := toHexAux_spec 7 (m + 7) (by omega) m []
    (by simpa using hb)
  have hdata : (toHex m).data = ds := by
    show toHexAux (m + 8) m [] = ds
    rw [hfe, hds, List.append_nil]
  constructor
  · show (padStart (toHex m) 8 '0').length = 8
    unfold padStart
    show (List.replicate (8 - (toHex m).length) '0' ++ (toHex m).data).length = 8
    have hlen : (toHex m).length = ds.length := by
      show (toHex m).data.length = ds.length
      rw [hdata]
    rw [List.length_append, List.length_replicate, hdata, hlen]
    omega
  · intro c hc
    show isHexChar c = true
    have : (hashHex url).data =
        List.replicate (8 - (toHex m).length) '0' ++ (toHex m).data := rfl
    rw [this] at hc
    rcases List.mem_append.mp hc with h' | h'
    · rw [List.eq_of_mem_replicate h']
      decide
    · rw [hdata] at h'
      exact hhex c h'

/-- The invariant of the filename-generation log along a download run. -/
def GenInv (st : ImgState) : Prop :=
  (∀ g ∈ st.genLog, g.1 ≤ st.imageCounter) ∧
  (st.genLog.map (fun g => g.1)).Pairwise (· < ·) ∧
  (∀ p ∈ st.imageMap, ∃ g ∈ st.genLog, p.2.fileName = genFileName g ∧ g.2.1 = p.1)

theorem downloadStep_geninv (download : String → Option DownloadOk) (pt : String)
    (acc : ImgState × List ImageEntry) (u : String)
    (h : GenInv acc.1) : GenInv (downloadStep download pt acc u).1 := by
  obtain ⟨h1, h2, h3⟩ := h
  unfold downloadStep
  dsimp only
  cases hfind : mapFind acc.1.imageMap u with
  | some e => exact ⟨h1, h2, h3⟩
  | none =>
      cases hdl : download u with
      | some r =>
          dsimp only
          refine ⟨?_, ?_, ?_⟩
          · intro g hg
            rcases List.mem_append.mp hg with h' | h'
            · exact Nat.le_trans (h1 g h') (Nat.le_succ _)
            · simp only [List.mem_singleton] at h'
              subst h'
              simp
          · rw [List.map_append, List.pairwise_append]
            refine ⟨h2, by simp, ?_⟩
            intro a ha b hb
            simp only [List.map_cons, List.map_nil, List.mem_singleton] at hb
            subst hb
            obtain ⟨g, hg, rfl⟩ := List.mem_map.mp ha
            exact Nat.lt_of_le_of_lt (h1 g hg) (Nat.lt_succ_self _)
          · intro p hp
            rcases List.mem_append.mp hp with h' | h'
            · obtain ⟨g, hg, hfe⟩ := h3 p h'
              exact ⟨g, List.mem_append.mpr (Or.inl hg), hfe⟩
            · simp only [List.mem_singleton] at h'
              subst h'
              exact ⟨(acc.1.imageCounter + 1, u, r.extension),
                List.mem_append.mpr (Or.inr (by simp)), rfl, rfl⟩
      | none => exact ⟨h1, h2, h3⟩

theorem foldl_downloadStep_geninv (download : String → Option DownloadOk) (pt : String)
    (urls : List String) :
    ∀ acc : ImgState × List ImageEntry, GenInv acc.1 →
      GenInv (urls.foldl (downloadStep download pt) acc).1 := by
  induction urls with
  | nil =>
      intro acc h
      exact h
  | cons u urls ih =>
      intro acc h
      rw [List.foldl_cons]
      exact ih _ (downloadStep_geninv download pt acc u h)

theorem genLog_filenames_nodup (log : List (Nat × String × String))
    (h : (log.map (fun g => g.1)).Pairwise (· < ·)) : (log.map genFileName).Nodup := by
  have h' : log.Pairwise (fun g g' => g.1 < g'.1) := List.pairwise_map.mp h
  have h2 : log.Pairwise (fun g g' => genFileName g ≠ genFileName g') := by
    refine h'.imp ?_
    intro a b hab hEq
    have := genFileName_counter_inj a b hEq
    omega
  exact List.pairwise_map.mpr h2

/-- **C8**: `generateImageFileName` produces
`img_<counter>_<hash(url)>.<ext>` with the counter bumped first; along a
run the used counters strictly increase, the hash part is exactly 8
lowercase hex characters derived from the URL, every `imageMap` entry's
filename is such a generated name for its own URL, and all generated
filenames are pairwise distinct. -/
theorem c8_image_filenames_unique (download : String → Option DownloadOk)
    (urls : List String) :
    (∀ (c : Nat) (u e : String),
        generateImageFileName c u e = (c + 1, genFileName (c + 1, u, e))) ∧
    ((batchDownloadImages download "未知页面" {} urls).1.genLog.map
        (fun g => g.1)).Pairwise (· < ·) ∧
    (∀ g ∈ (batchDownloadImages download "未知页面" {} urls).1.genLog,
        (hashHex g.2.1).length = 8 ∧ ∀ c ∈ (hashHex g.2.1).data, isHexChar c = true) ∧
    (∀ p ∈ (batchDownloadImages download "未知页面" {} urls).1.imageMap,
        ∃ g ∈ (batchDownloadImages download "未知页面" {} urls).1.genLog,
          p.2.fileName = genFileName g ∧ g.2.1 = p.1) ∧
    ((batchDownloadImages download "未知页面" {} urls).1.genLog.map genFileName).Nodup := by
  have hinv : GenInv (batchDownloadImages download "未知页面" {} urls).1 := by
    apply foldl_downloadStep_geninv
    exact ⟨by simp [ImgState.genLog], by simp [ImgState.genLog], by simp [ImgState.imageMap]⟩
  obtain ⟨-, h2, h3⟩ := hinv
  exact ⟨fun c u e => rfl, h2, fun g _ => hashHex_spec g.2.1, h3,
    genLog_filenames_nodup _ h2⟩

/-! ### Lemmas for the image dedup / path rewrite claim (C2) -/

/-- The shape of a local image path: its text starts with `./`. Absolute
URLs (`new URL(...).href` values) never do. -/
def dotSlash (s : String) : Bool :=
  match s.data with
  | '.' :: '/' :: _ => true
  | _ => false

theorem batchDownloadImages_foldl (download : String → Option DownloadOk) (pt : String)
    (st : ImgState) (urls : List String) :
    batchDownloadImages download pt st urls = urls.foldl (downloadStep download pt) (st, []) :=
  rfl

theorem dotSlash_local (fn : String) : dotSlash ("./images/" ++ fn) = true := by
  unfold dotSlash
  rw [str_data_append]
  rfl

theorem mapFind_append_some (m l : List (String × ImageEntry)) (u : String)
    (e : ImageEntry) (h : mapFind m u = some e) : mapFind (m ++ l) u = some e := by
  induction m with
  | nil => cases h
  | cons p m ih =>
      rw [List.cons_append]
      unfold mapFind at h ⊢
      by_cases hp : (p.1 == u) = true
      · rw [if_pos hp] at h ⊢
        exact h
      · rw [if_neg hp] at h ⊢
        exact ih h

theorem mapFind_append_none (m l : List (String × ImageEntry)) (u : String)
    (h : mapFind m u = none) : mapFind (m ++ l) u = mapFind l u := by
  induction m with
  | nil => rfl
  | cons p m ih =>
      rw [List.cons_append]
      by_cases hp : (p.1 == u) = true
      · exfalso
        unfold mapFind at h
        rw [if_pos hp] at h
        cases h
      · have h' : mapFind m u = none := by
          unfold mapFind at h
          rwa [if_neg hp] at h
        have hstep : mapFind (p :: (m ++ l)) u = mapFind (m ++ l) u := by
          have hdef : mapFind (p :: (m ++ l)) u =
              if (p.1 == u) = true then some p.2 else mapFind (m ++ l) u := rfl
          rw [hdef, if_neg hp]
        rw [hstep]
        exact ih h'

theorem mapFind_mem (m : List (String × ImageEntry)) (u : String) (e : ImageEntry)
    (h : mapFind m u = some e) : ∃ p ∈ m, p.1 = u ∧ p.2 = e := by
  induction m with
  | nil => cases h
  | cons p m ih =>
      unfold mapFind at h
      by_cases hp : (p.1 == u) = true
      · rw [if_pos hp] at h
        injection h with h
        exact ⟨p, by simp, eq_of_beq hp, h⟩
      · rw [if_neg hp] at h
        obtain ⟨q, hq, h1, h2⟩ := ih h
        exact ⟨q, List.mem_cons_of_mem p hq, h1, h2⟩

theorem dedupStep_mem (acc : List ImgInfo) (x i : ImgInfo) (h : i ∈ dedupStep acc x) :
    i ∈ acc ∨ i = x := by
  unfold dedupStep at h
  split at h
  · exact Or.inl h
  · rcases List.mem_append.mp h with h1 | h1
    · exact Or.inl h1
    · simp only [List.mem_singleton] at h1
      exact Or.inr h1

theorem dedup_fold_mem (l : List ImgInfo) :
    ∀ acc i, i ∈ l.foldl dedupStep acc → i ∈ acc ∨ i ∈ l := by
  induction l with
  | nil =>
      intro acc i h
      exact Or.inl h
  | cons x l ih =>
      intro acc i h
      rw [List.foldl_cons] at h
      rcases ih _ i h with h1 | h1
      · rcases dedupStep_mem acc x i h1 with h2 | h2
        · exact Or.inl h2
        · exact Or.inr (by simp [h2])
      · exact Or.inr (by simp [h1])

theorem dedup_fold_nodup (l : List ImgInfo) :
    ∀ acc, (acc.map (fun x => x.url)).Nodup →
      ((l.foldl dedupStep acc).map (fun x => x.url)).Nodup := by
  induction l with
  | nil =>
      intro acc h
      exact h
  | cons x l ih =>
      intro acc h
      rw [List.foldl_cons]
      apply ih
      unfold dedupStep
      split
      · exact h
      · next hany =>
          rw [List.map_append]
          refine List.Nodup.append h (List.nodup_singleton _) ?_
          intro u hu hv
          simp only [List.map_cons, List.map_nil, List.mem_singleton] at hv
          subst hv
          rw [List.any_eq_true] at hany
          obtain ⟨q, hq, hq2⟩ := List.mem_map.mp hu
          exact hany ⟨q, hq, by simp [hq2]⟩

theorem dedup_fold_url_mem (l : List ImgInfo) :
    ∀ acc u, (u ∈ acc.map (fun x => x.url) ∨ u ∈ l.map (fun x => x.url)) →
      u ∈ (l.foldl dedupStep acc).map (fun x => x.url) := by
  induction l with
  | nil =>
      intro acc u h
      rcases h with h | h
      · exact h
      · simp at h
  | cons x l ih =>
      intro acc u h
      rw [List.foldl_cons]
      apply ih
      rcases h with h | h
      · left
        unfold dedupStep
        split
        · exact h
        · rw [List.map_append]
          exact List.mem_append.mpr (Or.inl h)
      · rw [List.map_cons] at h
        rcases List.mem_cons.mp h with h1 | h1
        · left
          subst h1
          unfold dedupStep
          split
          · next hany =>
              rw [List.any_eq_true] at hany
              obtain ⟨q, hq, hq2⟩ := hany
              exact List.mem_map.mpr ⟨q, hq, eq_of_beq hq2⟩
          · rw [List.map_append]
            exact List.mem_append.mpr (Or.inr (by simp))
        · exact Or.inr h1

theorem downloadStep_log (download : String → Option DownloadOk) (pt : String)
    (acc : ImgState × List ImageEntry) (v : String) :
    (downloadStep download pt acc v).1.downloadLog = acc.1.downloadLog ∨
    (downloadStep download pt acc v).1.downloadLog = acc.1.downloadLog ++ [v] := by
  unfold downloadStep
  dsimp only
  cases mapFind acc.1.imageMap v with
  | some e => exact Or.inl rfl
  | none =>
      cases download v with
      | some r => exact Or.inr rfl
      | none => exact Or.inr rfl

theorem foldl_download_log_count (download : String → Option DownloadOk) (pt : String)
    (urls : List String) :
    ∀ (acc : ImgState × List ImageEntry) (u : String),
      (urls.foldl (downloadStep download pt) acc).1.downloadLog.count u ≤
        acc.1.downloadLog.count u + urls.count u := by
  induction urls with
  | nil =>
      intro acc u
      simp
  | cons v urls ih =>
      intro acc u
      rw [List.foldl_cons]
      refine Nat.le_trans (ih _ u) ?_
      rw [List.count_cons]
      rcases downloadStep_log download pt acc v with h | h
      · rw [h]
        omega
      · rw [h, List.count_append]
        by_cases he : v = u
        · subst he
          simp only [List.count_cons, List.count_nil, beq_self_eq_true, if_true]
          omega
        · have hb : (v == u) = false := beq_eq_false_iff_ne.mpr he
          simp only [List.count_cons, List.count_nil, hb, if_false]
          omega

theorem downloadStep_find_some (download : String → Option DownloadOk) (pt : String)
    (acc : ImgState × List ImageEntry) (v u : String) (e : ImageEntry)
    (h : mapFind acc.1.imageMap u = some e) :
    mapFind (downloadStep download pt acc v).1.imageMap u = some e := by
  unfold downloadStep
  dsimp only
  cases mapFind acc.1.imageMap v with
  | some _ => exact h
  | none =>
      cases download v with
      | some r => exact mapFind_append_some _ _ _ _ h
      | none => exact h

theorem foldl_download_find_some (download : String → Option DownloadOk) (pt : String)
    (urls : List String) :
    ∀ (acc : ImgState × List ImageEntry) (u : String) (e : ImageEntry),
      mapFind acc.1.imageMap u = some e →
      mapFind ((urls.foldl (downloadStep download pt) acc)).1.imageMap u = some e := by
  induction urls with
  | nil =>
      intro acc u e h
      exact h
  | cons v urls ih =>
      intro acc u e h
      rw [List.foldl_cons]
      exact ih _ u e (downloadStep_find_some download pt acc v u e h)

theorem foldl_download_reached (download : String → Option DownloadOk) (pt : String)
    (urls : List String) :
    ∀ (acc : ImgState × List ImageEntry) (u : String) (r : DownloadOk),
      u ∈ urls → download u = some r →
      ∃ e, mapFind ((urls.foldl (downloadStep download pt) acc)).1.imageMap u = some e := by
  induction urls with
  | nil =>
      intro acc u r h
      cases h
  | cons v urls ih =>
      intro acc u r hu hdl
      rw [List.foldl_cons]
      rcases List.mem_cons.mp hu with rfl | hu'
      · have hstep : ∃ e, mapFind (downloadStep download pt acc u).1.imageMap u = some e := by
          unfold downloadStep
          dsimp only
          cases hf : mapFind acc.1.imageMap u with
          | some e => exact ⟨e, hf⟩
          | none =>
              rw [hdl]
              dsimp only
              rw [mapFind_append_none _ _ _ hf]
              unfold mapFind
              rw [if_pos (by simp)]
              exact ⟨_, rfl⟩
        obtain ⟨e, he⟩ := hstep
        exact ⟨e, foldl_download_find_some download pt urls _ u e he⟩
      · exact ih _ u r hu' hdl

theorem downloadStep_keysP (download : String → Option DownloadOk) (pt : String)
    (acc : ImgState × List ImageEntry) (v : String) (P : String → Prop) (hv : P v)
    (h1 : ∀ p ∈ acc.1.imageMap, P p.1) (h2 : ∀ f ∈ acc.1.failedImages, P f.url) :
    (∀ p ∈ (downloadStep download pt acc v).1.imageMap, P p.1) ∧
    (∀ f ∈ (downloadStep download pt acc v).1.failedImages, P f.url) := by
  unfold downloadStep
  dsimp only
  cases mapFind acc.1.imageMap v with
  | some e => exact ⟨h1, h2⟩
  | none =>
      cases download v with
      | some r =>
          refine ⟨?_, h2⟩
          intro p hp
          rcases List.mem_append.mp hp with h' | h'
          · exact h1 p h'
          · simp only [List.mem_singleton] at h'
            subst h'
            exact hv
      | none =>
          refine ⟨h1, ?_⟩
          intro f hf
          rcases List.mem_append.mp hf with h' | h'
          · exact h2 f h'
          · simp only [List.mem_singleton] at h'
            subst h'
            exact hv

theorem foldl_download_keysP (download : String → Option DownloadOk) (pt : String)
    (P : String → Prop) (urls : List String) :
    ∀ acc : ImgState × List ImageEntry, (∀ u ∈ urls, P u) →
      (∀ p ∈ acc.1.imageMap, P p.1) → (∀ f ∈ acc.1.failedImages, P f.url) →
      (∀ p ∈ (urls.foldl (downloadStep download pt) acc).1.imageMap, P p.1) ∧
      (∀ f ∈ (urls.foldl (downloadStep download pt) acc).1.failedImages, P f.url) := by
  induction urls with
  | nil =>
      intro acc _ h1 h2
      exact ⟨h1, h2⟩
  | cons v urls ih =>
      intro acc hurls h1 h2
      rw [List.foldl_cons]
      obtain ⟨g1, g2⟩ := downloadStep_keysP download pt acc v P (hurls v (by simp)) h1 h2
      exact ih _ (fun u hu => hurls u (by simp [hu])) g1 g2

theorem downloadStep_shape (download : String → Option DownloadOk) (pt : String)
    (acc : ImgState × List ImageEntry) (v : String)
    (h : ∀ p ∈ acc.1.imageMap, p.2.localPath = "./images/" ++ p.2.fileName) :
    ∀ p ∈ (downloadStep download pt acc v).1.imageMap,
      p.2.localPath = "./images/" ++ p.2.fileName := by
  unfold downloadStep
  dsimp only
  cases mapFind acc.1.imageMap v with
  | some e => exact h
  | none =>
      cases download v with
      | some r =>
          intro p hp
          rcases List.mem_append.mp hp with h' | h'
          · exact h p h'
          · simp only [List.mem_singleton] at h'
            subst h'
            rfl
      | none => exact h

theorem foldl_download_shape (download : String → Option DownloadOk) (pt : String)
    (urls : List String) :
    ∀ acc : ImgState × List ImageEntry,
      (∀ p ∈ acc.1.imageMap, p.2.localPath = "./images/" ++ p.2.fileName) →
      ∀ p ∈ (urls.foldl (downloadStep download pt) acc).1.imageMap,
        p.2.localPath = "./images/" ++ p.2.fileName := by
  induction urls with
  | nil =>
      intro acc h
      exact h
  | cons v urls ih =>
      intro acc h
      rw [List.foldl_cons]
      exact ih _ (downloadStep_shape download pt acc v h)

theorem rewriteOkPiece_skip (p : String × ImageEntry) (alt v : String) (h : p.1 ≠ v) :
    rewriteOkPiece p (.image alt v) = .image alt v := by
  unfold rewriteOkPiece
  have hb : (v == p.1) = false := beq_eq_false_iff_ne.mpr (Ne.symm h)
  simp [hb]

theorem rewriteOk_skip (m : List (String × ImageEntry)) :
    ∀ (doc : List MdPiece) (k : Nat) (alt v : String), (∀ p ∈ m, p.1 ≠ v) →
      doc[k]? = some (.image alt v) →
      (rewriteOkFold m doc)[k]? = some (.image alt v) := by
  induction m with
  | nil =>
      intro doc k alt v _ hk
      exact hk
  | cons p m ih =>
      intro doc k alt v hv hk
      show (rewriteOkFold m (doc.map (rewriteOkPiece p)))[k]? = _
      refine ih _ k alt v (fun q hq => hv q (List.mem_cons_of_mem p hq)) ?_
      rw [List.getElem?_map, hk]
      simp [rewriteOkPiece_skip p alt v (hv p (by simp))]

theorem rewriteFailedPiece_skip (f : FailedImage) (alt v : String) (h : f.url ≠ v) :
    rewriteFailedPiece f (.image alt v) = .image alt v := by
  unfold rewriteFailedPiece
  have hb : (v == f.url) = false := beq_eq_false_iff_ne.mpr (Ne.symm h)
  simp [hb]

theorem rewriteFailed_skip (failed : List FailedImage) :
    ∀ (doc : List MdPiece) (k : Nat) (alt v : String), (∀ f ∈ failed, f.url ≠ v) →
      doc[k]? = some (.image alt v) →
      (rewriteFailedFold failed doc)[k]? = some (.image alt v) := by
  induction failed with
  | nil =>
      intro doc k alt v _ hk
      exact hk
  | cons f failed ih =>
      intro doc k alt v hv hk
      show (rewriteFailedFold failed (doc.map (rewriteFailedPiece f)))[k]? = _
      refine ih _ k alt v (fun q hq => hv q (List.mem_cons_of_mem f hq)) ?_
      rw [List.getElem?_map, hk]
      simp [rewriteFailedPiece_skip f alt v (hv f (by simp))]

theorem rewriteOk_hit (m : List (String × ImageEntry)) :
    ∀ (doc : List MdPiece) (k : Nat) (alt u : String) (e : ImageEntry),
      mapFind m u = some e →
      (∀ p ∈ m, dotSlash p.2.localPath = true) → (∀ p ∈ m, dotSlash p.1 = false) →
      altOk alt = true → doc[k]? = some (.image alt u) →
      (rewriteOkFold m doc)[k]? = some (.image alt e.localPath) := by
  induction m with
  | nil =>
      intro doc k alt u e hm _ _ _ _
      cases hm
  | cons p m ih =>
      intro doc k alt u e hm hval hkey ha hk
      show (rewriteOkFold m (doc.map (rewriteOkPiece p)))[k]? = _
      by_cases hp : p.1 = u
      · have he : e = p.2 := by
          unfold mapFind at hm
          rw [if_pos (beq_iff_eq.mpr hp)] at hm
          injection hm with hm
          exact hm.symm
        have hdoc' : (doc.map (rewriteOkPiece p))[k]? = some (.image alt e.localPath) := by
          rw [List.getElem?_map, hk]
          have hb : (u == p.1) = true := beq_iff_eq.mpr hp.symm
          simp [rewriteOkPiece, hb, ha, he]
        refine rewriteOk_skip m _ k alt e.localPath ?_ hdoc'
        intro q hq hqe
        have h1 := hkey q (List.mem_cons_of_mem p hq)
        rw [hqe, he] at h1
        rw [hval p (by simp)] at h1
        exact Bool.noConfusion h1
      · have hm' : mapFind m u = some e := by
          unfold mapFind at hm
          have hb : (p.1 == u) = false := beq_eq_false_iff_ne.mpr hp
          rw [hb] at hm
          simpa using hm
        refine ih _ k alt u e hm' (fun q hq => hval q (List.mem_cons_of_mem p hq))
          (fun q hq => hkey q (List.mem_cons_of_mem p hq)) ha ?_
        rw [List.getElem?_map, hk]
        simp [rewriteOkPiece_skip p alt u hp]

/-- **C2**: in a run where two distinct pages both yield an image reference
resolving to the same absolute URL `u`, the references are merged into
`imageUrlMap` before any download starts, so at most one
`downloadImageAsBlob` call is made for `u`; and when the download succeeds,
the path-rewrite pass sends every matchable `![alt](u)` occurrence of the
assembled document - in particular both pages' - to the one identical local
path `./images/<filename>` of the single `imageMap` entry. `habs` states
that collected URLs are absolute (`URL.href` values never start `./`). -/
theorem c2_one_download_shared_local_path (env : MdEnv) (pages : List PageEntry)
    (i j : Nat) (pi pj : PageEntry) (u : String) (r : DownloadOk)
    (hij : i ≠ j) (hpi : pages[i]? = some pi) (hpj : pages[j]? = some pj)
    (hui : u ∈ (pageImages env pi).map (fun x => x.url))
    (huj : u ∈ (pageImages env pj).map (fun x => x.url))
    (habs : ∀ x ∈ pages.flatMap (pageImages env), dotSlash x.url = false)
    (hdl : env.download u = some r) :
    (batchDownloadImages env.download "未知页面" {}
        ((dedupByUrl (pages.flatMap (pageImages env))).map
          (fun x => x.url))).1.downloadLog.count u ≤ 1 ∧
    ∃ e, mapFind (batchDownloadImages env.download "未知页面" {}
        ((dedupByUrl (pages.flatMap (pageImages env))).map
          (fun x => x.url))).1.imageMap u = some e ∧
      e.localPath = "./images/" ++ e.fileName ∧
      ∀ (doc : List MdPiece) (k : Nat) (alt : String), altOk alt = true →
        doc[k]? = some (.image alt u) →
        (replaceImagePaths
            (batchDownloadImages env.download "未知页面" {}
              ((dedupByUrl (pages.flatMap (pageImages env))).map (fun x => x.url))).1.imageMap
            (batchDownloadImages env.download "未知页面" {}
              ((dedupByUrl (pages.flatMap (pageImages env))).map
                (fun x => x.url))).1.failedImages
            doc)[k]? = some (.image alt e.localPath) := by
  have hmemi : u ∈ (pages.flatMap (pageImages env)).map (fun x => x.url) := by
    obtain ⟨x, hx, hxu⟩ := List.mem_map.mp hui
    exact List.mem_map.mpr ⟨x, List.mem_flatMap.mpr ⟨pi, List.getElem?_mem hpi, hx⟩, hxu⟩
  have humem : u ∈ (dedupByUrl (pages.flatMap (pageImages env))).map (fun x => x.url) :=
    dedup_fold_url_mem _ [] u (Or.inr hmemi)
  have hnd : ((dedupByUrl (pages.flatMap (pageImages env))).map (fun x => x.url)).Nodup :=
    dedup_fold_nodup _ [] (by simp)
  have hcount1 : ((dedupByUrl (pages.flatMap (pageImages env))).map
      (fun x => x.url)).count u ≤ 1 :=
    List.nodup_iff_count_le_one.mp hnd u
  have habs' : ∀ v ∈ (dedupByUrl (pages.flatMap (pageImages env))).map (fun x => x.url),
      dotSlash v = false := by
    intro v hv
    obtain ⟨x, hx, hxv⟩ := List.mem_map.mp hv
    rcases dedup_fold_mem _ [] x hx with h0 | h0
    · cases h0
    · exact hxv ▸ habs x h0
  simp only [batchDownloadImages_foldl]
  constructor
  · refine Nat.le_trans (foldl_download_log_count env.download "未知页面"
      ((dedupByUrl (pages.flatMap (pageImages env))).map (fun x => x.url))
      (({} : ImgState), ([] : List ImageEntry)) u) ?_
    simpa [ImgState.downloadLog] using hcount1
  · obtain ⟨e, he⟩ := foldl_download_reached env.download "未知页面"
      ((dedupByUrl (pages.flatMap (pageImages env))).map (fun x => x.url))
      (({} : ImgState), ([] : List ImageEntry)) u r humem hdl
    have hshape := foldl_download_shape env.download "未知页面"
      ((dedupByUrl (pages.flatMap (pageImages env))).map (fun x => x.url))
      (({} : ImgState), ([] : List ImageEntry)) (by simp [ImgState.imageMap])
    obtain ⟨hkeys, hfails⟩ := foldl_download_keysP env.download "未知页面"
      (fun v => dotSlash v = false)
      ((dedupByUrl (pages.flatMap (pageImages env))).map (fun x => x.url))
      (({} : ImgState), ([] : List ImageEntry)) habs' (by simp [ImgState.imageMap])
      (by simp [ImgState.failedImages])
    obtain ⟨pe, hpe, hpe1, hpe2⟩ := mapFind_mem _ _ _ he
    have heshape : e.localPath = "./images/" ++ e.fileName := by
      rw [← hpe2]
      exact hshape pe hpe
    refine ⟨e, he, heshape, ?_⟩
    intro doc k alt ha hk
    show (rewriteFailedFold _ (rewriteOkFold _ doc))[k]? = _
    have hok := rewriteOk_hit
      ((((dedupByUrl (pages.flatMap (pageImages env))).map (fun x => x.url)).foldl
        (downloadStep env.download "未知页面")
        (({} : ImgState), ([] : List ImageEntry))).1.imageMap)
      doc k alt u e he
      (fun p hp => by
        rw [hshape p hp]
        exact dotSlash_local _)
      hkeys ha hk
    refine rewriteFailed_skip _ _ k alt e.localPath ?_ hok
    intro f hf hfe
    have h1 := hfails f hf
    rw [hfe, heshape, dotSlash_local] at h1
    exact Bool.noConfusion h1

/-- Witness for C2: two pages whose content both reference
`https://duruofu.github.io/i.png`; at most one download attempt is made. -/
theorem c2_one_download_shared_local_path_witness :
    (batchDownloadImages (fun _ => some { blob := "B", extension := "png" }) "未知页面" {}
        ((dedupByUrl (([({ url := "https://a", title := "A", level := 1,
                           content := { html := "x", title := "A", styles := "",
                                        textLength := 1 },
                           index := 0 } : PageEntry),
                        ({ url := "https://b", title := "B", level := 1,
                           content := { html := "x", title := "B", styles := "",
                                        textLength := 1 },
                           index := 1 } : PageEntry)]).flatMap (pageImages
              { parseBody := fun _ => .elem "BODY" []
                    [.elem "IMG" [("src", "https://duruofu.github.io/i.png")] []],
                resolve := fun s => some s,
                download := fun _ => some { blob := "B", extension := "png" },
                now := "" }))).map (fun x => x.url))).1.downloadLog.count
      "https://duruofu.github.io/i.png" ≤ 1 :=
  (c2_one_download_shared_local_path
    { parseBody := fun _ => .elem "BODY" []
          [.elem "IMG" [("src", "https://duruofu.github.io/i.png")] []],
      resolve := fun s => some s,
      download := fun _ => some { blob := "B", extension := "png" },
      now := "" }
    [({ url := "https://a", title := "A", level := 1,
        content := { html := "x", title := "A", styles := "", textLength := 1 },
        index := 0 } : PageEntry),
     ({ url := "https://b", title := "B", level := 1,
        content := { html := "x", title := "B", styles := "", textLength := 1 },
        index := 1 } : PageEntry)]
    0 1
    ({ url := "https://a", title := "A", level := 1,
       content := { html := "x", title := "A", styles := "", textLength := 1 },
       index := 0 } : PageEntry)
    ({ url := "https://b", title := "B", level := 1,
       content := { html := "x", title := "B", styles := "", textLength := 1 },
       index := 1 } : PageEntry)
    "https://duruofu.github.io/i.png" { blob := "B", extension := "png" }
    (by decide) rfl rfl (by decide) (by decide) (by decide) rfl).1

/-- Witness for C8 on a two-image run. -/
theorem c8_image_filenames_witness :
    (hashHex "https://duruofu.github.io/img/a.png").length = 8 ∧
    ((batchDownloadImages (fun _ => some { blob := "B", extension := "png" }) "未知页面" {}
        ["https://duruofu.github.io/img/a.png", "https://duruofu.github.io/img/b.png"]).1.genLog.map
      genFileName).Nodup := by
  refine ⟨?_, ?_⟩
  · exact ((c8_image_filenames_unique (fun _ => some { blob := "B", extension := "png" })
      ["https://duruofu.github.io/img/a.png", "https://duruofu.github.io/img/b.png"]).2.2.1
      (1, "https://duruofu.github.io/img/a.png", "png") (by decide)).1
  · exact (c8_image_filenames_unique (fun _ => some { blob := "B", extension := "png" })
      ["https://duruofu.github.io/img/a.png", "https://duruofu.github.io/img/b.png"]).2.2.2.2

/-- **C6**: the discovered list is the stable sort by level of the
discovery-order list: levels are non-decreasing along it, and for every
level the subsequence at that level equals the discovery-order subsequence
(`collectLinks` is the pre-sort, discovery-order list). -/
theorem c6_discovery_stable_sort_by_level (resolve : String → Option String)
    (anchors : List Anchor) :
    (discoverAllPages resolve anchors).Pairwise (fun a b => a.level ≤ b.level) ∧
    ∀ k : Nat, (discoverAllPages resolve anchors).filter (fun l => l.level == k) =
      (collectLinks resolve anchors).filter (fun l => l.level == k) := by
  exact ⟨sortByLevel_pairwise _, fun k => sortByLevel_filter _ k⟩

/-- Witness for C4: empty discovery fetches nothing and errors; one
discovered page (even with a failing fetcher and failing downloader)
produces an artifact. -/
theorem c4_generation_witness :
    (generateCompleteMarkdown
        { parseBody := fun _ => .text "", resolve := fun _ => none,
          download := fun _ => none, now := "" }
        (fun _ => .error "network down") "Doc" []).2 = [] ∧
    ∃ a, (generateCompleteMarkdown
        { parseBody := fun _ => .text "", resolve := fun _ => none,
          download := fun _ => none, now := "" }
        (fun _ => .error "network down") "Doc"
        [{ url := "https://duruofu.github.io/a", title := "A", level := 1 }]).1 = .ok a := by
  constructor
  · exact ((c4_generation_error_iff_empty_discovery _ _ "Doc" []).1 rfl).2.1
  · exact ((c4_generation_error_iff_empty_discovery _ _ "Doc"
      [{ url := "https://duruofu.github.io/a", title := "A", level := 1 }]).2
      (by simp)).1

/-! ## C9: failure-report presence and the single inline warning -/

/-- The inline warning blocks of a document (what searching the Markdown for
the `⚠️` marker finds). -/
def isWarnedPiece : MdPiece → Bool
  | .warned _ _ _ => true
  | _ => false

/-- A segment the rewrite regex built for URL `u` matches: a literal
`![alt](u)` reference whose alt text has no `]`. -/
def matchableRef (u : String) : MdPiece → Bool
  | .image alt v => v == u && altOk alt
  | _ => false

/-- The `imageMap` entry built by a successful `downloadStep` at counter `c`. -/
def mkEntry (c : Nat) (u : String) (r : DownloadOk) : ImageEntry :=
  { localPath := "./images/" ++ (generateImageFileName c u r.extension).2,
    blob := r.blob,
    fileName := (generateImageFileName c u r.extension).2,
    originalUrl := u }

theorem rewriteOkPiece_isWarned (p : String × ImageEntry) (piece : MdPiece) :
    isWarnedPiece (rewriteOkPiece p piece) = isWarnedPiece piece := by
  cases piece with
  | txt s => rfl
  | warned a u r => rfl
  | image alt u =>
      simp only [rewriteOkPiece]
      by_cases hc : (u == p.1 && altOk alt) = true
      · rw [if_pos hc]
        rfl
      · rw [if_neg hc]

theorem rewriteOkPiece_matchable (u2 : String) (p : String × ImageEntry)
    (hk : p.1 ≠ u2) (hl : p.2.localPath ≠ u2) (piece : MdPiece) :
    matchableRef u2 (rewriteOkPiece p piece) = matchableRef u2 piece := by
  cases piece with
  | txt s => rfl
  | warned a u r => rfl
  | image alt u =>
      simp only [rewriteOkPiece]
      by_cases hc : (u == p.1 && altOk alt) = true
      · rw [if_pos hc]
        have hc2 : (u == p.1) = true ∧ altOk alt = true := by simpa using hc
        have hu : u = p.1 := eq_of_beq hc2.1
        have h1 : (p.2.localPath == u2) = false := beq_eq_false_iff_ne.mpr hl
        have h2 : (u == u2) = false := beq_eq_false_iff_ne.mpr (fun he => hk (hu ▸ he))
        simp [matchableRef, h1, h2]
      · rw [if_neg hc]

theorem rewriteOkFold_countP (u2 : String) :
    ∀ (m : List (String × ImageEntry)) (doc : List MdPiece),
      (∀ p ∈ m, p.1 ≠ u2 ∧ p.2.localPath ≠ u2) →
      (rewriteOkFold m doc).countP (matchableRef u2) = doc.countP (matchableRef u2) := by
  intro m
  induction m with
  | nil => intro doc _; rfl
  | cons p m ih =>
      intro doc hm
      show (rewriteOkFold m (doc.map (rewriteOkPiece p))).countP (matchableRef u2) = _
      rw [ih _ (fun q hq => hm q (List.mem_cons_of_mem p hq))]
      rw [List.countP_map]
      refine List.countP_congr ?_
      intro piece _
      rw [Function.comp_apply,
        rewriteOkPiece_matchable u2 p (hm p (by simp)).1 (hm p (by simp)).2 piece]

theorem rewriteOkFold_noWarned :
    ∀ (m : List (String × ImageEntry)) (doc : List MdPiece),
      (∀ q ∈ doc, isWarnedPiece q = false) →
      ∀ q ∈ rewriteOkFold m doc, isWarnedPiece q = false := by
  intro m
  induction m with
  | nil => intro doc hd q hq; exact hd q hq
  | cons p m ih =>
      intro doc hd q hq
      refine ih _ ?_ q hq
      intro r hr
      rcases List.mem_map.mp hr with ⟨s, hs, rfl⟩
      rw [rewriteOkPiece_isWarned]
      exact hd s hs

theorem rewriteFailedPiece_isWarned (f : FailedImage) (piece : MdPiece) :
    isWarnedPiece (rewriteFailedPiece f piece) =
      (matchableRef f.url piece || isWarnedPiece piece) := by
  cases piece with
  | txt s => rfl
  | warned a u r => rfl
  | image alt u =>
      simp only [rewriteFailedPiece]
      by_cases hc : (u == f.url && altOk alt) = true
      · rw [if_pos hc]
        simp [matchableRef, isWarnedPiece, hc]
      · rw [if_neg hc]
        have hc' : (u == f.url && altOk alt) = false := by
          cases h : (u == f.url && altOk alt) with
          | false => rfl
          | true => exact absurd h hc
        simp [matchableRef, isWarnedPiece, hc']

theorem reportFailureEntries_single (f : FailedImage) :
    reportFailureEntries [f] = [f] := by
  unfold reportFailureEntries groupByPage
  simp

theorem foldl_download_no_failures (download : String → Option DownloadOk) (pt : String) :
    ∀ (urls : List String) (acc : ImgState × List ImageEntry),
      (∀ u ∈ urls, download u ≠ none) → acc.1.failedImages = [] →
      (urls.foldl (downloadStep download pt) acc).1.failedImages = [] := by
  intro urls
  induction urls with
  | nil => intro acc _ hacc; exact hacc
  | cons v urls ih =>
      intro acc h hacc
      rw [List.foldl_cons]
      refine ih _ (fun u hu => h u (List.mem_cons_of_mem v hu)) ?_
      unfold downloadStep
      dsimp only
      cases mapFind acc.1.imageMap v with
      | some e => exact hacc
      | none =>
          cases hd : download v with
          | some r => exact hacc
          | none => exact absurd hd (h v (List.mem_cons_self v urls))

/-- **C9**: (a) when every URL handed to `batchDownloadImages` downloads
successfully, `failedImages` stays empty, so `generateFailureReport` returns
`null` and `downloadMarkdownWithImages` packages no report file into the
ZIP; (b) when exactly one of three distinct image URLs fails (`u2`, an
absolute URL), the report exists and prints exactly one failure entry, and
for any assembled document with exactly one matchable `![alt](u2)`
reference and no pre-existing warning blocks, `replaceImagePaths` puts
exactly one inline warning block in the document, at that reference's
position, carrying the original URL `u2`. -/
theorem c9_failure_report_and_single_warning (now pt : String) :
    (∀ (download : String → Option DownloadOk) (urls : List String),
        (∀ u ∈ urls, download u ≠ none) →
        generateFailureReport now
            (batchDownloadImages download pt {} urls).1.failedImages = none ∧
        ∀ (nm md : String) (imgs : List ImageEntry),
          zipEntries nm md imgs
              (generateFailureReport now
                (batchDownloadImages download pt {} urls).1.failedImages) =
            [(nm ++ ".md", md)] ++ imgs.filterMap (fun i =>
              if i.blob != "" && i.fileName != "" then
                some ("images/" ++ i.fileName, i.blob)
              else none)) ∧
    (∀ (download : String → Option DownloadOk) (u1 u2 u3 : String) (r1 r3 : DownloadOk),
        u1 ≠ u2 → u2 ≠ u3 → u1 ≠ u3 → dotSlash u2 = false →
        download u1 = some r1 → download u2 = none → download u3 = some r3 →
        (reportFailureEntries
          (batchDownloadImages download pt {} [u1, u2, u3]).1.failedImages).length = 1 ∧
        (generateFailureReport now
          (batchDownloadImages download pt {} [u1, u2, u3]).1.failedImages).isSome = true ∧
        ∀ (doc : List MdPiece) (k : Nat) (alt : String),
          (∀ q ∈ doc, isWarnedPiece q = false) →
          altOk alt = true →
          doc[k]? = some (.image alt u2) →
          doc.countP (matchableRef u2) = 1 →
          (replaceImagePaths
              (batchDownloadImages download pt {} [u1, u2, u3]).1.imageMap
              (batchDownloadImages download pt {} [u1, u2, u3]).1.failedImages
              doc)[k]? = some (.warned alt u2 "下载失败") ∧
          (replaceImagePaths
              (batchDownloadImages download pt {} [u1, u2, u3]).1.imageMap
              (batchDownloadImages download pt {} [u1, u2, u3]).1.failedImages
              doc).countP isWarnedPiece = 1) := by
  constructor
  · intro download urls h
    have hfa : (batchDownloadImages download pt {} urls).1.failedImages = [] :=
      foldl_download_no_failures download pt urls ({}, []) h rfl
    have hrep : generateFailureReport now
        (batchDownloadImages download pt {} urls).1.failedImages = none := by
      rw [hfa]
      simp [generateFailureReport]
    refine ⟨hrep, ?_⟩
    intro nm md imgs
    rw [hrep]
    simp [zipEntries]
  · intro download u1 u2 u3 r1 r3 h12 h23 h13 hds hd1 hd2 hd3
    have hb12 : (u1 == u2) = false := beq_eq_false_iff_ne.mpr h12
    have hb13 : (u1 == u3) = false := beq_eq_false_iff_ne.mpr h13
    have hrun : batchDownloadImages download pt {} [u1, u2, u3] =
        ({ imageMap := [(u1, mkEntry 0 u1 r1), (u3, mkEntry 1 u3 r3)],
           imageCounter := 2,
           failedImages :=
             [{ url := u2, error := "下载失败", pageTitle := pt, altText := "" }],
           downloadLog := [u1, u2, u3],
           genLog := [(1, u1, r1.extension), (2, u3, r3.extension)] },
         [mkEntry 0 u1 r1, mkEntry 1 u3 r3]) := by
      simp [batchDownloadImages, downloadStep, mapFind, hb12, hb13, hd1, hd2, hd3, mkEntry]
    have hfail : (batchDownloadImages download pt {} [u1, u2, u3]).1.failedImages =
        [{ url := u2, error := "下载失败", pageTitle := pt, altText := "" }] := by
      rw [hrun]
    have himap : (batchDownloadImages download pt {} [u1, u2, u3]).1.imageMap =
        [(u1, mkEntry 0 u1 r1), (u3, mkEntry 1 u3 r3)] := by
      rw [hrun]
    have hloc : ∀ (c : Nat) (u : String) (r : DownloadOk),
        (mkEntry c u r).localPath ≠ u2 := by
      intro c u r he
      have hdot := dotSlash_local (generateImageFileName c u r.extension).2
      rw [show (mkEntry c u r).localPath =
        "./images/" ++ (generateImageFileName c u r.extension).2 from rfl] at he
      rw [he, hds] at hdot
      exact Bool.noConfusion hdot
    have hmem : ∀ p ∈ [(u1, mkEntry 0 u1 r1), (u3, mkEntry 1 u3 r3)],
        p.1 ≠ u2 ∧ p.2.localPath ≠ u2 := by
      intro p hp
      rcases List.mem_cons.mp hp with rfl | hp
      · exact ⟨h12, hloc 0 u1 r1⟩
      rcases List.mem_cons.mp hp with rfl | hp
      · exact ⟨fun he => h23 he.symm, hloc 1 u3 r3⟩
      exact absurd hp (List.not_mem_nil p)
    refine ⟨?_, ?_, ?_⟩
    · rw [hfail, reportFailureEntries_single]
      rfl
    · rw [hfail]
      simp [generateFailureReport]
    · intro doc k alt hnw ha hk hcnt
      have hpass1 : (rewriteOkFold
          (batchDownloadImages download pt {} [u1, u2, u3]).1.imageMap doc)[k]? =
          some (.image alt u2) := by
        rw [himap]
        exact rewriteOk_skip _ doc k alt u2 (fun p hp => (hmem p hp).1) hk
      have hnw1 : ∀ q ∈ rewriteOkFold
          (batchDownloadImages download pt {} [u1, u2, u3]).1.imageMap doc,
          isWarnedPiece q = false :=
        rewriteOkFold_noWarned _ doc hnw
      have hc1 : (rewriteOkFold
          (batchDownloadImages download pt {} [u1, u2, u3]).1.imageMap doc).countP
          (matchableRef u2) = 1 := by
        rw [himap, rewriteOkFold_countP u2 _ doc hmem]
        exact hcnt
      constructor
      · show (rewriteFailedFold
          (batchDownloadImages download pt {} [u1, u2, u3]).1.failedImages
          (rewriteOkFold
            (batchDownloadImages download pt {} [u1, u2, u3]).1.imageMap doc))[k]? = _
        rw [hfail]
        show ((rewriteOkFold
          (batchDownloadImages download pt {} [u1, u2, u3]).1.imageMap doc).map
          (rewriteFailedPiece
            { url := u2, error := "下载失败", pageTitle := pt, altText := "" }))[k]? = _
        rw [List.getElem?_map, hpass1]
        simp [rewriteFailedPiece, ha]
      · show (rewriteFailedFold
          (batchDownloadImages download pt {} [u1, u2, u3]).1.failedImages
          (rewriteOkFold
            (batchDownloadImages download pt {} [u1, u2, u3]).1.imageMap doc)).countP
          isWarnedPiece = 1
        rw [hfail]
        show ((rewriteOkFold
          (batchDownloadImages download pt {} [u1, u2, u3]).1.imageMap doc).map
          (rewriteFailedPiece
            { url := u2, error := "下载失败", pageTitle := pt, altText := "" })).countP
          isWarnedPiece = 1
        rw [List.countP_map]
        refine Eq.trans (List.countP_congr ?_) hc1
        intro q hq
        rw [Function.comp_apply, rewriteFailedPiece_isWarned, hnw1 q hq, Bool.or_false]

theorem c9_failure_report_witness :
    generateFailureReport "t"
        (batchDownloadImages (fun _ => some { blob := "B", extension := "png" })
          "p" {} ["x"]).1.failedImages = none ∧
    (reportFailureEntries
        (batchDownloadImages
          (fun u => if u == "b" then none else some { blob := "B", extension := "png" })
          "p" {} ["a", "b", "c"]).1.failedImages).length = 1 :=
  ⟨((c9_failure_report_and_single_warning "t" "p").1 _ ["x"] (by decide)).1,
   (((c9_failure_report_and_single_warning "t" "p").2
      (fun u => if u == "b" then none else some { blob := "B", extension := "png" })
      "a" "b" "c" { blob := "B", extension := "png" } { blob := "B", extension := "png" }
      (by decide) (by decide) (by decide) (by decide) (by decide) (by decide)
      (by decide)).1)⟩

end HtmlPdf
